import Mathlib

/-!
Verification of the cadastral SOAP extraction/ingestion pipeline
(repository `api-request--soap-`).

The Python sources under `src/` are shallowly embedded below:

* JSON-like dynamic values (the `dict`/`list`/scalar records that flow
  through the pipeline) are modelled by the inductive type `JVal`;
  Python floats are modelled by `ℚ` (exact rational arithmetic).
* `service/cadastro_service.py` : `_gerar_intervalos` and the interval
  clamping prefix of `extrair_todos_cadastros`.
* `service/soap_client.py` : `_to_iso_date_if_needed` and `_to_list`.
* `service/cache_service.py` : `CacheService.salvar_cache` /
  `carregar_cache`, with the cache directory modelled as an association
  list from file names to the stored JSON documents (the
  `json.dump`/`json.load` round trip of the standard library is modelled
  value-levelly: a written document is read back as the same value).
* `service/statistics_service.py` : `_extrair_valor_numerico`,
  `_analisar_lacunas_codigos`, `analisar_codigos_cadastro`.
* `repository/database_repository.py` : `_parse_float`,
  `verificar_cadastro_existe`, `inserir_cadastro_completo` (with
  `model/database_models.py`'s `CadastroImobiliario.__init__`
  derivations), `atualizar_cadastro`.
* `service/database_service.py` : `_processar_lote_cadastros`, with the
  database session modelled as a list of rows; SQLAlchemy ORM attribute
  access (`hasattr`/`setattr`) is modelled as plain field update on the
  row structure.

Python peculiarities that matter here are modelled faithfully:
`bool` is a subtype of `int` (so `isinstance(x, int)` holds for booleans
and `True == 1`), `int()`/`float()` of a string strip surrounding
whitespace and accept an optional sign, `float()` additionally accepts a
fractional part and an exponent, `range` with a negative step counts
down, and `if not x:` tests Python truthiness (`0`, `""`, `None`, empty
collections are falsy).  Out of the model: IEEE-754 rounding (ℚ is
used), `inf`/`nan` literals and PEP-515 underscore separators in numeric
strings, and OS-level I/O errors (the cache and the database session are
modelled as pure state).
-/

/-- A Python/JSON dynamic value as it flows through the pipeline:
`none_`/`bool`/`int`/`float`/`str`/`list`/`dict`.  Floats are modelled
as exact rationals, dicts as insertion-ordered association lists
(Python 3.7+ dicts are ordered). -/
inductive JVal where
  | null : JVal
  | b : Bool → JVal
  | i : Int → JVal
  | f : Rat → JVal
  | s : String → JVal
  | arr : List JVal → JVal
  | obj : List (String × JVal) → JVal

namespace JVal

/-- `d.get(k)` on a Python dict: the value under the first matching key,
`None` when absent (association lists with unique keys model dicts). -/
def get (v : JVal) (k : String) : JVal :=
  match v with
  | obj fields => ((fields.lookup k).getD JVal.null)
  | _ => JVal.null

/-- `k in d` for a Python dict. -/
def hasKey (v : JVal) (k : String) : Bool :=
  match v with
  | obj fields => (fields.lookup k).isSome
  | _ => false

/-- `isinstance(v, dict)`. -/
def isObj : JVal → Bool
  | obj _ => true
  | _ => false

/-- `isinstance(v, list)`. -/
def isArr : JVal → Bool
  | arr _ => true
  | _ => false

/-- Python truthiness: `bool(v)` — `None`, `False`, `0`, `0.0`, `""`,
`[]` and `{}` are falsy, everything else truthy. -/
def isTruthy : JVal → Bool
  | null => false
  | b x => x
  | i n => n != 0
  | f q => q != 0
  | s str => str != ""
  | arr [] => false
  | arr (_ :: _) => true
  | obj [] => false
  | obj (_ :: _) => true

end JVal

/-! ## C1 — interval generation (`service/cadastro_service.py`)

`extrair_todos_cadastros` first clamps `intervalo_size` to
`app_config.max_interval_size` (lines 54–56) and then calls
`_gerar_intervalos` (lines 139–145), which loops
`for i in range(inicio, fim + 1, tamanho)` appending
`(i, min(i + tamanho - 1, fim))`. -/

/-- Number of values yielded by Python `range(start, stop, step)` for a
nonzero step (for `step = 0` Python raises before yielding; callers
guard that case). -/
def pyRangeLen (start stop step : Int) : Nat :=
  if 0 < step then ((stop - start + step - 1) / step).toNat
  else ((start - stop - step - 1) / (-step)).toNat

/-- Python `range(start, stop, step)` as a list, for nonzero `step`. -/
def pyRange (start stop step : Int) : List Int :=
  (List.range (pyRangeLen start stop step)).map (fun (k : Nat) => start + step * (k : Int))

/-- `CadastroService._gerar_intervalos`:
`for i in range(inicio, fim + 1, tamanho): append (i, min(i + tamanho - 1, fim))`.
A zero `tamanho` makes Python's `range` raise `ValueError`, modelled by
the `Except.error` branch. -/
def gerar_intervalos (inicio fim tamanho : Int) : Except String (List (Int × Int)) :=
  if tamanho = 0 then Except.error "range() arg 3 must not be zero"
  else Except.ok
    ((pyRange inicio (fim + 1) tamanho).map (fun i => (i, min (i + tamanho - 1) fim)))

/-- The clamp at the top of `extrair_todos_cadastros`:
`if intervalo_size > self.app_config.max_interval_size: intervalo_size = ...max_interval_size`. -/
def clamp_intervalo (intervalo_size max_interval_size : Int) : Int :=
  if intervalo_size > max_interval_size then max_interval_size else intervalo_size

/-- The interval-preparation prefix of `extrair_todos_cadastros`:
clamp the requested size, then generate the interval list. -/
def extrair_intervalos (codigo_inicio codigo_fim intervalo_size max_interval_size : Int) :
    Except String (List (Int × Int)) :=
  gerar_intervalos codigo_inicio codigo_fim (clamp_intervalo intervalo_size max_interval_size)

theorem clamp_intervalo_pos (a m : Int) (ha : 1 ≤ a) (hm : 1 ≤ m) :
    1 ≤ clamp_intervalo a m := by
  unfold clamp_intervalo
  split <;> omega

theorem pyRangeLen_pos_step (start stop step : Int) (hstep : 0 < step) :
    (pyRangeLen start stop step : Int) = max 0 ((stop - start + step - 1) / step) := by
  unfold pyRangeLen
  rw [if_pos hstep]
  rcases le_or_lt 0 ((stop - start + step - 1) / step) with h | h
  · rw [Int.toNat_of_nonneg h, max_eq_right h]
  · rw [max_eq_left h.le]
    omega

theorem gerar_intervalos_len (inicio fim tamanho : Int) (h1 : inicio ≤ fim)
    (h2 : 1 ≤ tamanho) :
    ∃ L, gerar_intervalos inicio fim tamanho = Except.ok L ∧
      (L.length : Int) = (fim - inicio) / tamanho + 1 ∧
      ∀ k : Nat, (hk : k < L.length) →
        L.get ⟨k, hk⟩ =
          (inicio + tamanho * k, min (inicio + tamanho * k + tamanho - 1) fim) := by
  refine ⟨(pyRange inicio (fim + 1) tamanho).map (fun i => (i, min (i + tamanho - 1) fim)),
    ?_, ?_, ?_⟩
  · unfold gerar_intervalos
    rw [if_neg (by omega)]
  · simp only [List.length_map, pyRange, List.length_range]
    rw [pyRangeLen_pos_step _ _ _ (by omega)]
    have hdiv : (fim + 1 - inicio + tamanho - 1) / tamanho = (fim - inicio) / tamanho + 1 := by
      have : fim + 1 - inicio + tamanho - 1 = (fim - inicio) + 1 * tamanho := by ring
      rw [this, Int.add_mul_ediv_right _ _ (by omega : tamanho ≠ 0)]
    rw [hdiv]
    have hnn : 0 ≤ (fim - inicio) / tamanho :=
      Int.ediv_nonneg (by omega) (by omega)
    omega
  · intro k hk
    simp only [List.get_eq_getElem, pyRange, List.getElem_map, List.getElem_range]

/-- C1 (amended): for `start ≤ end`, a positive requested size and a
positive configured maximum, `extrair_todos_cadastros` clamps the size
and partitions `[start, end]` into an ordered list of non-overlapping
contiguous integer intervals covering exactly `[start, end]`, each of
width at most the clamped size (hence at most the configured maximum).
-/
theorem extrair_intervalos_particiona
    (inicio fim tamanho maxSize : Int)
    (h1 : inicio ≤ fim) (h2 : 1 ≤ tamanho) (h3 : 1 ≤ maxSize) :
    ∃ L : List (Int × Int),
      extrair_intervalos inicio fim tamanho maxSize = Except.ok L ∧
      (∀ p ∈ L, p.1 ≤ p.2 ∧
        p.2 - p.1 + 1 ≤ clamp_intervalo tamanho maxSize ∧
        p.2 - p.1 + 1 ≤ maxSize) ∧
      (∀ x : Int, (inicio ≤ x ∧ x ≤ fim) ↔ ∃ p ∈ L, p.1 ≤ x ∧ x ≤ p.2) ∧
      (∀ i j : Nat, (hi : i < L.length) → (hj : j < L.length) → i < j →
        (L.get ⟨i, hi⟩).2 < (L.get ⟨j, hj⟩).1) ∧
      (∀ k : Nat, (hk : k + 1 < L.length) →
        (L.get ⟨k + 1, hk⟩).1 = (L.get ⟨k, Nat.lt_of_succ_lt hk⟩).2 + 1) := by
  set t := clamp_intervalo tamanho maxSize with hT
  have ht : 1 ≤ t := clamp_intervalo_pos _ _ h2 h3
  have htm : t ≤ maxSize := by
    unfold clamp_intervalo at hT
    rw [hT]
    split <;> omega
  obtain ⟨L, hok, hlen, helem⟩ := gerar_intervalos_len inicio fim t h1 ht
  have hql : t * ((fim - inicio) / t) ≤ fim - inicio := by
    have := Int.ediv_mul_le (fim - inicio) (by omega : t ≠ 0)
    linarith [this, mul_comm ((fim - inicio) / t) t]
  have hqu : fim - inicio < ((fim - inicio) / t + 1) * t :=
    Int.lt_ediv_add_one_mul_self _ (by omega)
  refine ⟨L, ?_, ?_, ?_, ?_, ?_⟩
  · unfold extrair_intervalos
    rw [← hT]
    exact hok
  · intro p hp
    obtain ⟨⟨k, hk⟩, hpk⟩ := List.mem_iff_get.mp hp
    rw [helem k hk] at hpk
    have hkq : (k : Int) ≤ (fim - inicio) / t := by omega
    have hstart : t * k ≤ fim - inicio := by
      calc t * (k : Int) ≤ t * ((fim - inicio) / t) := by
            exact mul_le_mul_of_nonneg_left hkq (by omega)
        _ ≤ fim - inicio := hql
    subst hpk
    constructor
    · simp only [ge_iff_le, le_min_iff]
      constructor <;> omega
    constructor
    · simp only
      have : min (inicio + t * k + t - 1) fim ≤ inicio + t * k + t - 1 := min_le_left _ _
      omega
    · have : min (inicio + t * k + t - 1) fim ≤ inicio + t * k + t - 1 := min_le_left _ _
      simp only
      omega
  · intro x
    constructor
    · rintro ⟨hx1, hx2⟩
      have hkx0 : 0 ≤ (x - inicio) / t := Int.ediv_nonneg (by omega) (by omega)
      have hkxq : (x - inicio) / t ≤ (fim - inicio) / t :=
        Int.ediv_le_ediv (by omega) (by omega)
      set k : Nat := ((x - inicio) / t).toNat with hk
      have hkv : (k : Int) = (x - inicio) / t := Int.toNat_of_nonneg hkx0
      have hkL : k < L.length := by omega
      refine ⟨L.get ⟨k, hkL⟩, List.get_mem _ _ _, ?_⟩
      rw [helem k hkL]
      have h1k : t * ((x - inicio) / t) ≤ x - inicio := by
        have := Int.ediv_mul_le (x - inicio) (by omega : t ≠ 0)
        linarith [this, mul_comm ((x - inicio) / t) t]
      have h2k : x - inicio < t * ((x - inicio) / t) + t := by
        have h := Int.lt_ediv_add_one_mul_self (x - inicio) (by omega : (0:Int) < t)
        have hr : ((x - inicio) / t + 1) * t = t * ((x - inicio) / t) + t := by ring
        omega
      rw [show ((k : Int)) = (x - inicio) / t from hkv]
      constructor
      · simp only
        omega
      · simp only [le_min_iff]
        constructor <;> omega
    · rintro ⟨p, hp, hx1, hx2⟩
      obtain ⟨⟨k, hk⟩, hpk⟩ := List.mem_iff_get.mp hp
      rw [helem k hk] at hpk
      subst hpk
      simp only [le_min_iff] at hx2
      constructor
      · have : (0:Int) ≤ t * k := by positivity
        simp only at hx1
        omega
      · exact hx2.2
  · intro i j hi hj hij
    rw [helem i hi, helem j hj]
    simp only
    have hm : min (inicio + t * i + t - 1) fim ≤ inicio + t * i + t - 1 := min_le_left _ _
    have hstep : t * ((i : Int) + 1) ≤ t * (j : Int) := by
      have hij2 : ((i : Int) + 1) ≤ (j : Int) := by exact_mod_cast hij
      exact mul_le_mul_of_nonneg_left hij2 (by omega)
    have hd : t * ((i : Int) + 1) = t * (i : Int) + t := by ring
    omega
  · intro k hk
    have hk0 : k < L.length := Nat.lt_of_succ_lt hk
    rw [helem (k + 1) hk, helem k hk0]
    simp only
    have hkq : ((k : Int) + 1) ≤ (fim - inicio) / t := by
      omega
    have hk1 : t * ((k : Int) + 1) ≤ t * ((fim - inicio) / t) :=
      mul_le_mul_of_nonneg_left hkq (by omega)
    have hd : t * ((k : Int) + 1) = t * (k : Int) + t := by ring
    have hmin : min (inicio + t * k + t - 1) fim = inicio + t * k + t - 1 := by
      apply min_eq_left
      omega
    rw [hmin]
    push_cast
    ring

/-- Witness for C1: a concrete run, `[0, 250]` with requested size 100
and configured maximum 100 (the default). -/
theorem extrair_intervalos_particiona_witness :
    ((0:Int) ≤ 250 ∧ (1:Int) ≤ 100 ∧ (1:Int) ≤ 100) ∧
    ∃ L : List (Int × Int),
      extrair_intervalos 0 250 100 100 = Except.ok L ∧
      (∀ p ∈ L, p.1 ≤ p.2 ∧
        p.2 - p.1 + 1 ≤ clamp_intervalo 100 100 ∧
        p.2 - p.1 + 1 ≤ 100) ∧
      (∀ x : Int, ((0:Int) ≤ x ∧ x ≤ 250) ↔ ∃ p ∈ L, p.1 ≤ x ∧ x ≤ p.2) ∧
      (∀ i j : Nat, (hi : i < L.length) → (hj : j < L.length) → i < j →
        (L.get ⟨i, hi⟩).2 < (L.get ⟨j, hj⟩).1) ∧
      (∀ k : Nat, (hk : k + 1 < L.length) →
        (L.get ⟨k + 1, hk⟩).1 = (L.get ⟨k, Nat.lt_of_succ_lt hk⟩).2 + 1) :=
  ⟨⟨by decide, by decide, by decide⟩,
    extrair_intervalos_particiona 0 250 100 100 (by decide) (by decide) (by decide)⟩

/-- C1 counterexample: the claim quantifies over *every* requested
interval size, but for the non-positive requested size `-1` (clamped to
itself, since `-1 > 100` is false) Python's `range(0, 11, -1)` is empty,
so no interval list covering `[0, 10]` is produced. -/
theorem extrair_intervalos_tamanho_nao_positivo :
    ¬ ∃ L : List (Int × Int),
        extrair_intervalos 0 10 (-1) 100 = Except.ok L ∧
        ∀ x : Int, ((0:Int) ≤ x ∧ x ≤ 10) ↔ ∃ p ∈ L, p.1 ≤ x ∧ x ≤ p.2 := by
  rintro ⟨L, hL, hcov⟩
  have hempty : extrair_intervalos 0 10 (-1) 100 = Except.ok [] := by rfl
  rw [hempty] at hL
  have hLnil : L = [] := by
    cases hL
    rfl
  subst hLnil
  obtain ⟨p, hp, -⟩ := (hcov 0).mp ⟨le_refl 0, by norm_num⟩
  exact absurd hp (List.not_mem_nil p)

/-! ## C3 — wire-level date normalization (`service/soap_client.py`)

`_to_iso_date_if_needed` matches `_DATE_BR_RE =
^\d{2}/\d{2}/\d{4}(?: \d{2}:\d{2}:\d{2})?$`; on a match it parses with
`datetime.strptime` (`%d/%m/%Y[ %H:%M:%S]`) and re-renders with
`strftime` (`%Y-%m-%d[ %H:%M:%S]`), returning the input on any parse
error; otherwise (including already-ISO input) it returns the input.
`strptime`/`datetime` accept only calendar-valid dates (day 1..days in
month, month 1..12, year 1..9999, hour ≤ 23, minute ≤ 59, second ≤ 59);
`strftime` output is modelled zero-padded (`%Y` to four digits). -/

/-- Numeric value of two ASCII digit characters. -/
def parse2 (a b : Char) : Nat := (a.toNat - 48) * 10 + (b.toNat - 48)

/-- Numeric value of four ASCII digit characters. -/
def parse4 (a b c d : Char) : Nat :=
  (a.toNat - 48) * 1000 + (b.toNat - 48) * 100 + (c.toNat - 48) * 10 + (d.toNat - 48)

/-- The ASCII digit character for `n < 10`. -/
def digitChar2 (n : Nat) : Char := Char.ofNat (48 + n)

/-- Two-digit zero-padded rendering (`%d`, `%m`, `%H`, `%M`, `%S`). -/
def pad2 (n : Nat) : String := String.mk [digitChar2 (n / 10 % 10), digitChar2 (n % 10)]

/-- Four-digit zero-padded rendering (`%Y`). -/
def pad4 (n : Nat) : String :=
  String.mk [digitChar2 (n / 1000 % 10), digitChar2 (n / 100 % 10),
    digitChar2 (n / 10 % 10), digitChar2 (n % 10)]

/-- Gregorian leap-year rule (as in Python's `calendar`/`datetime`). -/
def isLeapYear (y : Nat) : Bool := (y % 4 == 0 && y % 100 != 0) || y % 400 == 0

/-- Days in a month (as validated by `datetime`). -/
def diasNoMes (y m : Nat) : Nat :=
  if m = 2 then (if isLeapYear y then 29 else 28)
  else if m = 4 || m = 6 || m = 9 || m = 11 then 30 else 31

/-- `datetime.strptime("%d/%m/%Y")` succeeds exactly on calendar-valid
dates with year in `datetime`'s range `1..9999`. -/
def validDate (y m d : Nat) : Bool :=
  1 ≤ y && y ≤ 9999 && 1 ≤ m && m ≤ 12 && 1 ≤ d && d ≤ diasNoMes y m

/-- Time-of-day validity for `%H:%M:%S` under `datetime.strptime`. -/
def validTime (h mi se : Nat) : Bool := h ≤ 23 && mi ≤ 59 && se ≤ 59

/-- `_DATE_BR_RE`: `^\d{2}/\d{2}/\d{4}(?: \d{2}:\d{2}:\d{2})?$`. -/
def matchDateBRL (cs : List Char) : Bool :=
  match cs with
  | [d1, d2, sl1, m1, m2, sl2, y1, y2, y3, y4] =>
      d1.isDigit && d2.isDigit && sl1 == '/' && m1.isDigit && m2.isDigit && sl2 == '/' &&
      y1.isDigit && y2.isDigit && y3.isDigit && y4.isDigit
  | [d1, d2, sl1, m1, m2, sl2, y1, y2, y3, y4, sp, h1, h2, c1, n1, n2, c2, s1, s2] =>
      d1.isDigit && d2.isDigit && sl1 == '/' && m1.isDigit && m2.isDigit && sl2 == '/' &&
      y1.isDigit && y2.isDigit && y3.isDigit && y4.isDigit && sp == ' ' &&
      h1.isDigit && h2.isDigit && c1 == ':' && n1.isDigit && n2.isDigit && c2 == ':' &&
      s1.isDigit && s2.isDigit
  | _ => false

/-- `_DATE_ISO_DATE_RE`: `^\d{4}-\d{2}-\d{2}$`. -/
def matchISOdateL (cs : List Char) : Bool :=
  match cs with
  | [y1, y2, y3, y4, da1, m1, m2, da2, d1, d2] =>
      y1.isDigit && y2.isDigit && y3.isDigit && y4.isDigit && da1 == '-' &&
      m1.isDigit && m2.isDigit && da2 == '-' && d1.isDigit && d2.isDigit
  | _ => false

/-- `_DATE_ISO_DATETIME_RE`: `^\d{4}-\d{2}-\d{2} \d{2}:\d{2}:\d{2}$`. -/
def matchISOdatetimeL (cs : List Char) : Bool :=
  match cs with
  | [y1, y2, y3, y4, da1, m1, m2, da2, d1, d2, sp, h1, h2, c1, n1, n2, c2, s1, s2] =>
      y1.isDigit && y2.isDigit && y3.isDigit && y4.isDigit && da1 == '-' &&
      m1.isDigit && m2.isDigit && da2 == '-' && d1.isDigit && d2.isDigit && sp == ' ' &&
      h1.isDigit && h2.isDigit && c1 == ':' && n1.isDigit && n2.isDigit && c2 == ':' &&
      s1.isDigit && s2.isDigit
  | _ => false

/-- The `try strptime/strftime` body of `_to_iso_date_if_needed` on a
`_DATE_BR_RE`-shaped character list: `some` of the re-rendered string on
success, `none` on a `ValueError` (invalid calendar date/time). -/
def convertBRL (cs : List Char) : Option String :=
  match cs with
  | [d1, d2, _, m1, m2, _, y1, y2, y3, y4] =>
      let d := parse2 d1 d2
      let m := parse2 m1 m2
      let y := parse4 y1 y2 y3 y4
      if validDate y m d then some (pad4 y ++ "-" ++ pad2 m ++ "-" ++ pad2 d) else none
  | [d1, d2, _, m1, m2, _, y1, y2, y3, y4, _, h1, h2, _, n1, n2, _, s1, s2] =>
      let d := parse2 d1 d2
      let m := parse2 m1 m2
      let y := parse4 y1 y2 y3 y4
      let h := parse2 h1 h2
      let n := parse2 n1 n2
      let se := parse2 s1 s2
      if validDate y m d && validTime h n se then
        some (pad4 y ++ "-" ++ pad2 m ++ "-" ++ pad2 d ++ " " ++
          pad2 h ++ ":" ++ pad2 n ++ ":" ++ pad2 se)
      else none
  | _ => none

/-- `soap_client._to_iso_date_if_needed` on strings. -/
def to_iso_date_if_needed (str : String) : String :=
  if matchDateBRL str.toList then
    match convertBRL str.toList with
    | some out => out
    | none => str
  else if matchISOdateL str.toList || matchISOdatetimeL str.toList then str
  else str

theorem digitChar2_isDigit {k : Nat} (h : k < 10) : (digitChar2 k).isDigit = true := by
  interval_cases k <;> decide

theorem digitChar2_mod10_isDigit (n : Nat) : (digitChar2 (n % 10)).isDigit = true :=
  digitChar2_isDigit (Nat.mod_lt _ (by norm_num))

theorem toNat_digitChar2 {k : Nat} (h : k < 10) : (digitChar2 k).toNat = 48 + k := by
  interval_cases k <;> decide

theorem isDigit_beq_false (c c2 : Char) (h : c.isDigit = true) (h2 : c2.isDigit = false) :
    (c == c2) = false := by
  by_cases hc : c = c2
  · subst hc
    rw [h] at h2
    cases h2
  · exact beq_eq_false_iff_ne.mpr hc

theorem parse2_digits (n : Nat) (h : n < 100) :
    parse2 (digitChar2 (n / 10 % 10)) (digitChar2 (n % 10)) = n := by
  unfold parse2
  rw [toNat_digitChar2 (Nat.mod_lt _ (by norm_num)),
    toNat_digitChar2 (Nat.mod_lt _ (by norm_num))]
  omega

theorem parse4_digits (n : Nat) (h : n < 10000) :
    parse4 (digitChar2 (n / 1000 % 10)) (digitChar2 (n / 100 % 10))
      (digitChar2 (n / 10 % 10)) (digitChar2 (n % 10)) = n := by
  unfold parse4
  rw [toNat_digitChar2 (Nat.mod_lt _ (by norm_num)),
    toNat_digitChar2 (Nat.mod_lt _ (by norm_num)),
    toNat_digitChar2 (Nat.mod_lt _ (by norm_num)),
    toNat_digitChar2 (Nat.mod_lt _ (by norm_num))]
  omega

theorem diasNoMes_le (y m : Nat) : diasNoMes y m ≤ 31 := by
  unfold diasNoMes
  split_ifs <;> norm_num

theorem validDate_bounds {y m d : Nat} (hv : validDate y m d = true) :
    1 ≤ y ∧ y ≤ 9999 ∧ 1 ≤ m ∧ m ≤ 12 ∧ 1 ≤ d ∧ d ≤ 31 := by
  unfold validDate at hv
  simp only [Bool.and_eq_true, decide_eq_true_eq] at hv
  have := diasNoMes_le y m
  omega

theorem validTime_bounds {h mi se : Nat} (hv : validTime h mi se = true) :
    h ≤ 23 ∧ mi ≤ 59 ∧ se ≤ 59 := by
  unfold validTime at hv
  simp only [Bool.and_eq_true, decide_eq_true_eq] at hv
  omega

theorem to_iso_valid_br_date (d m y : Nat) (hv : validDate y m d = true) :
    to_iso_date_if_needed (pad2 d ++ "/" ++ pad2 m ++ "/" ++ pad4 y) =
      pad4 y ++ "-" ++ pad2 m ++ "-" ++ pad2 d := by
  obtain ⟨hy1, hy2, hm1, hm2, hd1, hd2⟩ := validDate_bounds hv
  have hlist : (pad2 d ++ "/" ++ pad2 m ++ "/" ++ pad4 y).toList =
      [digitChar2 (d / 10 % 10), digitChar2 (d % 10), '/',
       digitChar2 (m / 10 % 10), digitChar2 (m % 10), '/',
       digitChar2 (y / 1000 % 10), digitChar2 (y / 100 % 10),
       digitChar2 (y / 10 % 10), digitChar2 (y % 10)] := rfl
  unfold to_iso_date_if_needed
  rw [hlist]
  simp only [matchDateBRL, convertBRL, digitChar2_mod10_isDigit, Bool.true_and,
    Bool.and_true, beq_self_eq_true, if_true]
  rw [parse2_digits d (by omega), parse2_digits m (by omega), parse4_digits y (by omega), hv]
  rfl

theorem to_iso_valid_br_datetime (d m y h n se : Nat) (hv : validDate y m d = true)
    (ht : validTime h n se = true) :
    to_iso_date_if_needed (pad2 d ++ "/" ++ pad2 m ++ "/" ++ pad4 y ++ " " ++
        pad2 h ++ ":" ++ pad2 n ++ ":" ++ pad2 se) =
      pad4 y ++ "-" ++ pad2 m ++ "-" ++ pad2 d ++ " " ++
        pad2 h ++ ":" ++ pad2 n ++ ":" ++ pad2 se := by
  obtain ⟨hy1, hy2, hm1, hm2, hd1, hd2⟩ := validDate_bounds hv
  obtain ⟨hh, hn, hs⟩ := validTime_bounds ht
  have hlist : (pad2 d ++ "/" ++ pad2 m ++ "/" ++ pad4 y ++ " " ++
      pad2 h ++ ":" ++ pad2 n ++ ":" ++ pad2 se).toList =
      [digitChar2 (d / 10 % 10), digitChar2 (d % 10), '/',
       digitChar2 (m / 10 % 10), digitChar2 (m % 10), '/',
       digitChar2 (y / 1000 % 10), digitChar2 (y / 100 % 10),
       digitChar2 (y / 10 % 10), digitChar2 (y % 10), ' ',
       digitChar2 (h / 10 % 10), digitChar2 (h % 10), ':',
       digitChar2 (n / 10 % 10), digitChar2 (n % 10), ':',
       digitChar2 (se / 10 % 10), digitChar2 (se % 10)] := rfl
  unfold to_iso_date_if_needed
  rw [hlist]
  simp only [matchDateBRL, convertBRL, digitChar2_mod10_isDigit, Bool.true_and,
    Bool.and_true, beq_self_eq_true, if_true]
  rw [parse2_digits d (by omega), parse2_digits m (by omega), parse4_digits y (by omega),
    parse2_digits h (by omega), parse2_digits n (by omega), parse2_digits se (by omega),
    hv, ht]
  rfl

theorem matchDateBRL_not_iso (cs : List Char) (hbr : matchDateBRL cs = true) :
    (matchISOdateL cs || matchISOdatetimeL cs) = false := by
  unfold matchDateBRL at hbr
  split at hbr
  · simp only [Bool.and_eq_true, beq_iff_eq] at hbr
    obtain ⟨⟨⟨⟨⟨⟨⟨⟨⟨h1, h2⟩, h3⟩, h4⟩, h5⟩, h6⟩, h7⟩, h8⟩, h9⟩, h10⟩ := hbr
    subst h3
    subst h6
    simp only [matchISOdateL, matchISOdatetimeL, Bool.or_eq_false_iff]
    constructor
    · rw [isDigit_beq_false _ _ h5 (by decide)]
      simp
    · trivial
  · simp only [Bool.and_eq_true, beq_iff_eq] at hbr
    obtain ⟨⟨⟨⟨⟨⟨⟨⟨⟨⟨⟨⟨⟨⟨⟨⟨⟨⟨h1, h2⟩, h3⟩, h4⟩, h5⟩, h6⟩, h7⟩, h8⟩, h9⟩, h10⟩,
      h11⟩, h12⟩, h13⟩, h14⟩, h15⟩, h16⟩, h17⟩, h18⟩, h19⟩ := hbr
    subst h3
    subst h6
    simp only [matchISOdateL, matchISOdatetimeL, Bool.or_eq_false_iff]
    constructor
    · trivial
    · rw [isDigit_beq_false _ _ h5 (by decide)]
      simp
  · exact absurd hbr (by simp)

theorem to_iso_no_br_match (str : String) (h : matchDateBRL str.toList = false) :
    to_iso_date_if_needed str = str := by
  unfold to_iso_date_if_needed
  rw [h]
  simp only [Bool.false_eq_true, if_false, ite_self]

theorem to_iso_iso_unchanged (str : String)
    (h : (matchISOdateL str.toList || matchISOdatetimeL str.toList) = true) :
    to_iso_date_if_needed str = str := by
  rcases Bool.eq_false_or_eq_true (matchDateBRL str.toList) with hbr | hbr
  · rw [matchDateBRL_not_iso _ hbr] at h
    cases h
  · exact to_iso_no_br_match str hbr

/-- C3: the wire-level date normalizer maps a calendar-valid
`DD/MM/YYYY` string to `YYYY-MM-DD` and a calendar-valid
`DD/MM/YYYY HH:MM:SS` string to `YYYY-MM-DD HH:MM:SS`, returns
already-ISO strings (`YYYY-MM-DD` / `YYYY-MM-DD HH:MM:SS`) unchanged,
and returns every other string unchanged — including the empty string
and regex-shaped but calendar-invalid dates, for which `strptime`
raises and the original string is returned. -/
theorem normalizacao_datas_wire :
    (∀ d m y : Nat, validDate y m d = true →
      to_iso_date_if_needed (pad2 d ++ "/" ++ pad2 m ++ "/" ++ pad4 y) =
        pad4 y ++ "-" ++ pad2 m ++ "-" ++ pad2 d) ∧
    (∀ d m y h n se : Nat, validDate y m d = true → validTime h n se = true →
      to_iso_date_if_needed (pad2 d ++ "/" ++ pad2 m ++ "/" ++ pad4 y ++ " " ++
          pad2 h ++ ":" ++ pad2 n ++ ":" ++ pad2 se) =
        pad4 y ++ "-" ++ pad2 m ++ "-" ++ pad2 d ++ " " ++
          pad2 h ++ ":" ++ pad2 n ++ ":" ++ pad2 se) ∧
    (∀ str : String, (matchISOdateL str.toList || matchISOdatetimeL str.toList) = true →
      to_iso_date_if_needed str = str) ∧
    (∀ str : String, matchDateBRL str.toList = false → to_iso_date_if_needed str = str) ∧
    to_iso_date_if_needed "" = "" ∧
    to_iso_date_if_needed "31/12/2023" = "2023-12-31" ∧
    to_iso_date_if_needed "2023-12-31" = "2023-12-31" ∧
    to_iso_date_if_needed "99/99/2023" = "99/99/2023" :=
  ⟨to_iso_valid_br_date, to_iso_valid_br_datetime, to_iso_iso_unchanged, to_iso_no_br_match,
    rfl, by decide, by decide, by decide⟩

/-- Witness for C3 at concrete inputs (valid date, ISO string,
non-matching string). -/
theorem normalizacao_datas_wire_witness :
    (validDate 2023 12 31 = true ∧
      to_iso_date_if_needed (pad2 31 ++ "/" ++ pad2 12 ++ "/" ++ pad4 2023) =
        pad4 2023 ++ "-" ++ pad2 12 ++ "-" ++ pad2 31) ∧
    ((matchISOdateL ("2024-01-05".toList) || matchISOdatetimeL ("2024-01-05".toList)) = true ∧
      to_iso_date_if_needed "2024-01-05" = "2024-01-05") ∧
    (matchDateBRL ("not a date".toList) = false ∧
      to_iso_date_if_needed "not a date" = "not a date") :=
  ⟨⟨by decide, normalizacao_datas_wire.1 31 12 2023 (by decide)⟩,
    ⟨by decide, normalizacao_datas_wire.2.2.1 "2024-01-05" (by decide)⟩,
    ⟨by decide, normalizacao_datas_wire.2.2.2.1 "not a date" (by decide)⟩⟩

/-! ## C4 — interval cache (`service/cache_service.py`)

`CacheService` keeps one JSON file per interval key in `data/cache/`:
`salvar_cache` writes `json.dump(cadastros)` to
`cache_{codigo_intervalo}.json` (overwriting), `carregar_cache` returns
`None` when the file does not exist and `json.load` of its content
otherwise.  The cache directory is modelled as an association list from
file names to stored JSON documents; the `json` round trip is modelled
value-levelly. -/

/-- File name used by both `salvar_cache` and `carregar_cache`:
`os.path.join(CACHE_DIR, "cache_{codigo_intervalo}.json")` (the fixed
directory prefix is omitted; it is common to every entry). -/
def cacheFileName (codigo_intervalo : String) : String :=
  "cache_" ++ codigo_intervalo ++ ".json"

/-- The contents of the cache directory: file name ↦ stored document. -/
abbrev CacheDir := List (String × JVal)

/-- `open(name, "w")` + `json.dump(content)`: create or overwrite. -/
def writeFile (dir : CacheDir) (name : String) (content : JVal) : CacheDir :=
  match dir with
  | [] => [(name, content)]
  | (n, c) :: rest =>
      if n = name then (name, content) :: rest else (n, c) :: writeFile rest name content

/-- `CacheService.salvar_cache`. -/
def salvar_cache (dir : CacheDir) (codigo_intervalo : String) (cadastros : List JVal) :
    CacheDir :=
  writeFile dir (cacheFileName codigo_intervalo) (JVal.arr cadastros)

/-- `CacheService.carregar_cache`: `None` if the file does not exist,
else the parsed stored document. -/
def carregar_cache (dir : CacheDir) (codigo_intervalo : String) : Option JVal :=
  dir.lookup (cacheFileName codigo_intervalo)

theorem lookup_writeFile (dir : CacheDir) (name : String) (content : JVal) :
    (writeFile dir name content).lookup name = some content := by
  induction dir with
  | nil => simp [writeFile, List.lookup]
  | cons e rest ih =>
      obtain ⟨n, c⟩ := e
      unfold writeFile
      by_cases hn : n = name
      · rw [if_pos hn]
        simp [List.lookup]
      · rw [if_neg hn]
        have hne : (name == n) = false := beq_eq_false_iff_ne.mpr (fun hcon => hn hcon.symm)
        simp only [List.lookup, hne]
        exact ih

theorem lookup_absent (dir : CacheDir) (name : String)
    (h : ∀ e ∈ dir, e.1 ≠ name) : dir.lookup name = none := by
  induction dir with
  | nil => rfl
  | cons e rest ih =>
      obtain ⟨n, c⟩ := e
      have hne : (name == n) = false :=
        beq_eq_false_iff_ne.mpr (fun hcon => (h (n, c) (by simp)) hcon.symm)
      simp only [List.lookup, hne]
      exact ih (fun e he => h e (List.mem_cons_of_mem _ he))

/-- C4: `salvar_cache(k, v)` followed by `carregar_cache(k)` returns
exactly the stored list `v` (as a JSON document), including the empty
list, while `carregar_cache(k)` on a directory holding no file for `k`
returns `None` — so a cached empty result is distinguishable from a
cache miss. -/
theorem cache_roundtrip :
    (∀ (dir : CacheDir) (k : String) (v : List JVal),
      carregar_cache (salvar_cache dir k v) k = some (JVal.arr v)) ∧
    (∀ (dir : CacheDir) (k : String), (∀ e ∈ dir, e.1 ≠ cacheFileName k) →
      carregar_cache dir k = none) ∧
    (∀ (dir : CacheDir) (k : String),
      carregar_cache (salvar_cache dir k []) k = some (JVal.arr []) ∧
      carregar_cache (salvar_cache dir k []) k ≠ none) :=
  ⟨fun dir k v => lookup_writeFile dir (cacheFileName k) (JVal.arr v),
    fun dir k h => lookup_absent dir (cacheFileName k) h,
    fun dir k =>
      ⟨lookup_writeFile dir (cacheFileName k) (JVal.arr []),
        fun hcon => by
          unfold carregar_cache salvar_cache at hcon
          rw [lookup_writeFile dir (cacheFileName k) (JVal.arr [])] at hcon
          cases hcon⟩⟩

/-- Witness for C4: empty directory, key `"1-100"`, the empty list and a
one-record list. -/
theorem cache_roundtrip_witness :
    carregar_cache (salvar_cache [] "1-100" [JVal.obj [("codigo_cadastro", JVal.s "7")]])
        "1-100" =
      some (JVal.arr [JVal.obj [("codigo_cadastro", JVal.s "7")]]) ∧
    ((∀ e ∈ ([] : CacheDir), e.1 ≠ cacheFileName "1-100") ∧
      carregar_cache [] "1-100" = none) ∧
    carregar_cache (salvar_cache [] "1-100" []) "1-100" ≠ none :=
  ⟨cache_roundtrip.1 [] "1-100" [JVal.obj [("codigo_cadastro", JVal.s "7")]],
    ⟨fun e he => absurd he (List.not_mem_nil e),
      cache_roundtrip.2.1 [] "1-100" (fun e he => absurd he (List.not_mem_nil e))⟩,
    (cache_roundtrip.2.2 [] "1-100").2⟩

/-! ## C5 — float normalization (`statistics_service._extrair_valor_numerico`
and `database_repository._parse_float`)

Both functions: `None → None`; `isinstance(valor, (int, float)) →
float(valor)` (note Python `bool` is an `int`, so `True → 1.0`); strings
are parsed with `float(valor.replace(",", "."))`, returning `None` on
`ValueError`; every other type returns `None`.  `float(str)` strips
surrounding whitespace and accepts `[sign] (digits [. digits] | . digits)
[e/E [sign] digits]`; `inf`/`nan` and underscore separators are outside
the model. -/

/-- Numeric value of a list of ASCII digits (most significant first). -/
def digitsToNat (cs : List Char) : Nat :=
  cs.foldl (fun acc c => acc * 10 + (c.toNat - 48)) 0

/-- Python `str.strip()` of whitespace, as applied by `float()`/`int()`. -/
def pyStrip (cs : List Char) : List Char :=
  ((cs.dropWhile Char.isWhitespace).reverse.dropWhile Char.isWhitespace).reverse

/-- Optional sign prefix: `+`, `-` or nothing. -/
def pySign (cs : List Char) : Int × List Char :=
  match cs with
  | '+' :: r => (1, r)
  | '-' :: r => (-1, r)
  | r => (1, r)

/-- Exponent digits with optional sign, e.g. the `-07` of `1e-07`. -/
def pyExpDigits (cs : List Char) : Option Int :=
  let (sign, rest) := pySign cs
  let ds := rest.takeWhile Char.isDigit
  let tail := rest.dropWhile Char.isDigit
  if ds ≠ [] ∧ tail = [] then some (sign * (digitsToNat ds : Int)) else none

/-- The optional `e`/`E` exponent suffix of a `float()` literal. -/
def pyExpPart (cs : List Char) : Option Int :=
  match cs with
  | [] => some 0
  | 'e' :: rest => pyExpDigits rest
  | 'E' :: rest => pyExpDigits rest
  | _ => none

/-- Mantissa of a `float()` literal: `digits [. digits] | . digits`.
Returns the digit value, the number of fractional digits, and the
remaining characters. -/
def pyMantissa (cs : List Char) : Option (Nat × Nat × List Char) :=
  let ds1 := cs.takeWhile Char.isDigit
  let r1 := cs.dropWhile Char.isDigit
  match r1 with
  | '.' :: r2 =>
      let ds2 := r2.takeWhile Char.isDigit
      let r3 := r2.dropWhile Char.isDigit
      if ds1 = [] ∧ ds2 = [] then none
      else some (digitsToNat (ds1 ++ ds2), ds2.length, r3)
  | _ => if ds1 = [] then none else some (digitsToNat ds1, 0, r1)

/-- Scan a stripped `float()` literal into signed mantissa digits,
fractional-digit count and exponent. -/
def pyFloatScan (cs : List Char) : Option (Int × Nat × Int) :=
  let (sign, r0) := pySign cs
  match pyMantissa r0 with
  | none => none
  | some (mant, fd, rest) =>
      match pyExpPart rest with
      | none => none
      | some e => some (sign * (mant : Int), fd, e)

/-- Value of the scanned parts: `mantissa / 10^fracDigits * 10^expo`. -/
def ratOfParts (p : Int × Nat × Int) : ℚ :=
  (p.1 : ℚ) / 10 ^ p.2.1 * (10 : ℚ) ^ p.2.2

/-- Python `float(strvalue)`: `None` models a `ValueError`. -/
def pythonFloat (strvalue : String) : Option ℚ :=
  (pyFloatScan (pyStrip strvalue.toList)).map ratOfParts

/-- Python `strvalue.replace(",", ".")`. -/
def replaceCommaDot (v : String) : String :=
  String.mk (v.toList.map (fun c => if c = ',' then '.' else c))

/-- `database_repository.DatabaseRepository._parse_float`. -/
def parse_float (valor : JVal) : Option ℚ :=
  match valor with
  | JVal.null => none
  | JVal.b x => some (if x then 1 else 0)
  | JVal.i n => some (n : ℚ)
  | JVal.f q => some q
  | JVal.s strvalue => pythonFloat (replaceCommaDot strvalue)
  | JVal.arr _ => none
  | JVal.obj _ => none

/-- `statistics_service.StatisticsService._extrair_valor_numerico`
(identical logic to `_parse_float`). -/
def extrair_valor_numerico (valor : JVal) : Option ℚ :=
  match valor with
  | JVal.null => none
  | JVal.b x => some (if x then 1 else 0)
  | JVal.i n => some (n : ℚ)
  | JVal.f q => some q
  | JVal.s strvalue => pythonFloat (replaceCommaDot strvalue)
  | JVal.arr _ => none
  | JVal.obj _ => none

/-- C5: float normalization returns `float(v)` for int/float inputs
(booleans included, being Python ints), parses strings after replacing
each comma with a dot (`"123,45" ↦ 123.45`), and returns `None` — it is
a total function, so it never raises — for unparsable strings such as
`"abc"`, for `None`, and for lists and dicts.  Both the statistics-side
and the repository-side implementations agree on every input. -/
theorem normalizacao_float :
    (parse_float JVal.null = none) ∧
    (∀ n : Int, parse_float (JVal.i n) = some (n : ℚ)) ∧
    (∀ q : ℚ, parse_float (JVal.f q) = some q) ∧
    (parse_float (JVal.s "123,45") = some (123.45 : ℚ)) ∧
    (parse_float (JVal.s "abc") = none) ∧
    (∀ xs, parse_float (JVal.arr xs) = none) ∧
    (∀ fields, parse_float (JVal.obj fields) = none) ∧
    (∀ v : JVal, extrair_valor_numerico v = parse_float v) := by
  refine ⟨rfl, fun n => rfl, fun q => rfl, ?_, by decide, fun xs => rfl, fun fields => rfl,
    fun v => by cases v <;> rfl⟩
  have hscan : pyFloatScan (pyStrip (replaceCommaDot "123,45").toList) =
      some (12345, 2, 0) := by decide
  show pythonFloat (replaceCommaDot "123,45") = some (123.45 : ℚ)
  unfold pythonFloat
  rw [hscan]
  show some (ratOfParts (12345, 2, 0)) = some (123.45 : ℚ)
  congr 1
  unfold ratOfParts
  norm_num

/-! ## C6 — gap analysis (`statistics_service._analisar_lacunas_codigos`)

`sorted(set(codigos))`, then for each consecutive pair `(atual, proximo)`
with `proximo - atual > 1` a gap `{inicio: atual+1, fim: proximo-1,
tamanho: proximo-atual-1}`; the gaps are sorted by size descending
(Python's stable sort) and the ten largest kept. -/

/-- Insert into a strictly sorted list without duplicating. -/
def insertUniqueInt (x : Int) : List Int → List Int
  | [] => [x]
  | y :: ys =>
      if x < y then x :: y :: ys else if x = y then y :: ys else y :: insertUniqueInt x ys

/-- Python `sorted(set(l))`: the strictly increasing enumeration of the
distinct elements of `l`. -/
def sortedUnique (l : List Int) : List Int := l.foldr insertUniqueInt []

/-- The gap triples `(inicio, fim, tamanho)` read off consecutive pairs
of the sorted distinct code list. -/
def lacunasConsecutivas : List Int → List (Int × Int × Int)
  | a :: b :: rest =>
      (if b - a > 1 then [(a + 1, b - 1, b - a - 1)] else []) ++ lacunasConsecutivas (b :: rest)
  | _ => []

/-- Result dict of `_analisar_lacunas_codigos`.  (For empty input Python
returns a dict without the `lacuna_media` key; that branch is dead code
— both call sites guard non-empty input — and is modelled with media 0.) -/
structure LacunasInfo where
  total_lacunas : Nat
  maiores_lacunas : List (Int × Int × Int)
  lacuna_media : ℚ

/-- Descending-size order used by `sorted(key=tamanho, reverse=True)`. -/
def gapGE (g h : Int × Int × Int) : Prop := h.2.2 ≤ g.2.2

instance : DecidableRel gapGE := fun g h => inferInstanceAs (Decidable (h.2.2 ≤ g.2.2))

instance : IsTotal (Int × Int × Int) gapGE := ⟨fun a c => le_total c.2.2 a.2.2⟩

instance : IsTrans (Int × Int × Int) gapGE := ⟨fun _ _ _ hac hce => le_trans hce hac⟩

/-- `StatisticsService._analisar_lacunas_codigos`. -/
def analisar_lacunas_codigos (codigos : List Int) : LacunasInfo :=
  match codigos with
  | [] => ⟨0, [], 0⟩
  | _ :: _ =>
      let lacunas := lacunasConsecutivas (sortedUnique codigos)
      let ordenadas := List.insertionSort gapGE lacunas
      ⟨lacunas.length, ordenadas.take 10,
        if lacunas.length = 0 then 0
        else (((lacunas.map (fun g => g.2.2)).sum : Int) : ℚ) / (lacunas.length : ℚ)⟩

theorem mem_insertUniqueInt (x z : Int) (l : List Int) :
    z ∈ insertUniqueInt x l ↔ z = x ∨ z ∈ l := by
  induction l with
  | nil => simp [insertUniqueInt]
  | cons y ys ih =>
      unfold insertUniqueInt
      split_ifs with h1 h2
      · simp [List.mem_cons]
      · subst h2
        simp [List.mem_cons]
      · simp only [List.mem_cons, ih]
        tauto

theorem pairwise_insertUniqueInt (x : Int) (l : List Int)
    (hl : l.Pairwise (· < ·)) : (insertUniqueInt x l).Pairwise (· < ·) := by
  induction l with
  | nil => simp [insertUniqueInt]
  | cons y ys ih =>
      rw [List.pairwise_cons] at hl
      obtain ⟨hy, hys⟩ := hl
      unfold insertUniqueInt
      split_ifs with h1 h2
      · rw [List.pairwise_cons]
        refine ⟨?_, List.pairwise_cons.mpr ⟨hy, hys⟩⟩
        intro z hz
        rcases List.mem_cons.mp hz with rfl | hz2
        · exact h1
        · exact lt_trans h1 (hy z hz2)
      · exact List.pairwise_cons.mpr ⟨hy, hys⟩
      · rw [List.pairwise_cons]
        refine ⟨?_, ih hys⟩
        intro z hz
        rcases (mem_insertUniqueInt x z ys).mp hz with rfl | hz2
        · omega
        · exact hy z hz2

theorem sortedUnique_spec (l : List Int) :
    (sortedUnique l).Pairwise (· < ·) ∧ ∀ z : Int, z ∈ sortedUnique l ↔ z ∈ l := by
  induction l with
  | nil => simp [sortedUnique]
  | cons x xs ih =>
      obtain ⟨hp, hm⟩ := ih
      refine ⟨pairwise_insertUniqueInt x _ hp, ?_⟩
      intro z
      rw [show sortedUnique (x :: xs) = insertUniqueInt x (sortedUnique xs) from rfl,
        mem_insertUniqueInt]
      simp [hm z, List.mem_cons]

theorem lacunas_mem_spec (a bb sz : Int) :
    ∀ l : List Int, l.Pairwise (· < ·) →
      ((a, bb, sz) ∈ lacunasConsecutivas l ↔
        (sz = bb - a + 1 ∧ a ≤ bb ∧ (a - 1) ∈ l ∧ (bb + 1) ∈ l ∧
          ∀ x : Int, a ≤ x → x ≤ bb → x ∉ l)) := by
  intro l
  induction l with
  | nil =>
      intro _
      simp [lacunasConsecutivas]
  | cons p rest ih =>
      intro hp
      cases rest with
      | nil =>
          simp only [lacunasConsecutivas, List.not_mem_nil, false_iff]
          rintro ⟨h1, h2, h3, h4, h5⟩
          rw [List.mem_singleton] at h3 h4
          omega
      | cons q rest2 =>
          rw [List.pairwise_cons] at hp
          obtain ⟨hplt, hp2⟩ := hp
          have hpq : p < q := hplt q (by simp)
          have hq2 : ∀ z ∈ rest2, q < z := (List.pairwise_cons.mp hp2).1
          show (a, bb, sz) ∈
            (if q - p > 1 then [(p + 1, q - 1, q - p - 1)] else []) ++
              lacunasConsecutivas (q :: rest2) ↔ _
          rw [List.mem_append]
          constructor
          · rintro (hhead | htail)
            · rw [List.mem_ite_nil_right] at hhead
              obtain ⟨hgt, heq⟩ := hhead
              rw [List.mem_singleton] at heq
              simp only [Prod.mk.injEq] at heq
              obtain ⟨ha, hb, hs⟩ := heq
              refine ⟨by omega, by omega, ?_, ?_, ?_⟩
              · rw [show a - 1 = p by omega]
                simp
              · rw [show bb + 1 = q by omega]
                simp
              · intro x hx1 hx2
                simp only [List.mem_cons]
                rintro (rfl | rfl | hx3)
                · omega
                · omega
                · have := hq2 x hx3
                  omega
            · obtain ⟨h1, h2, h3, h4, h5⟩ := (ih hp2).mp htail
              have haq : q ≤ a - 1 := by
                rcases List.mem_cons.mp h3 with rfl | h3b
                · omega
                · have := hq2 _ h3b
                  omega
              refine ⟨h1, h2, List.mem_cons_of_mem _ h3, List.mem_cons_of_mem _ h4, ?_⟩
              intro x hx1 hx2
              simp only [List.mem_cons]
              rintro (rfl | hx3)
              · omega
              · exact h5 x hx1 hx2 (List.mem_cons.mpr hx3)
          · rintro ⟨h1, h2, h3, h4, h5⟩
            rcases List.mem_cons.mp h3 with hap | h3b
            · -- a - 1 = p : the gap must close at q
              have hbq : bb + 1 = q := by
                rcases List.mem_cons.mp h4 with hbp | h4b
                · omega
                rcases List.mem_cons.mp h4b with hq | h4c
                · exact hq
                · exfalso
                  have hqx := hq2 _ h4c
                  exact h5 q (by omega) (by omega) (by simp)
              left
              rw [List.mem_ite_nil_right]
              refine ⟨by omega, ?_⟩
              rw [List.mem_singleton]
              simp only [Prod.mk.injEq]
              refine ⟨by omega, by omega, by omega⟩
            · -- a - 1 lies in q :: rest2 : recurse
              right
              have haq : q ≤ a - 1 := by
                rcases List.mem_cons.mp h3b with rfl | h3c
                · omega
                · have := hq2 _ h3c
                  omega
              refine (ih hp2).mpr ⟨h1, h2, h3b, ?_, ?_⟩
              · rcases List.mem_cons.mp h4 with hbp | h4b
                · omega
                · exact h4b
              · intro x hx1 hx2 hx3
                refine h5 x hx1 hx2 ?_
                simp only [List.mem_cons] at hx3 ⊢
                tauto

/-- C6: for a non-empty code list, the gaps are exactly the maximal runs
of consecutive integers absent from the list whose both neighbours are
present (hence strictly between the minimum and maximum code), each
reported as `(inicio, fim, tamanho)` with `tamanho = fim - inicio + 1`;
the report keeps the first ten of a size-descending ordering of all
gaps; on `{1,2,3,7,8,10}` the result is `[(4,6,3),(9,9,1)]`. -/
theorem analise_lacunas_codigos_spec (codigos : List Int) (hne : codigos ≠ []) :
    (∀ a bb sz : Int,
      (a, bb, sz) ∈ lacunasConsecutivas (sortedUnique codigos) ↔
        (sz = bb - a + 1 ∧ a ≤ bb ∧ (a - 1) ∈ codigos ∧ (bb + 1) ∈ codigos ∧
          ∀ x : Int, a ≤ x → x ≤ bb → x ∉ codigos)) ∧
    (analisar_lacunas_codigos codigos).total_lacunas =
      (lacunasConsecutivas (sortedUnique codigos)).length ∧
    (∃ ord : List (Int × Int × Int),
      ord.Perm (lacunasConsecutivas (sortedUnique codigos)) ∧
      ord.Pairwise gapGE ∧
      (analisar_lacunas_codigos codigos).maiores_lacunas = ord.take 10) ∧
    (analisar_lacunas_codigos [1, 2, 3, 7, 8, 10]).total_lacunas = 2 ∧
    (analisar_lacunas_codigos [1, 2, 3, 7, 8, 10]).maiores_lacunas =
      [(4, 6, 3), (9, 9, 1)] := by
  obtain ⟨hsorted, hmem⟩ := sortedUnique_spec codigos
  refine ⟨?_, ?_, ?_, by decide, by decide⟩
  · intro a bb sz
    rw [lacunas_mem_spec a bb sz _ hsorted]
    simp only [hmem]
  · cases codigos with
    | nil => exact absurd rfl hne
    | cons c cs => rfl
  · refine ⟨List.insertionSort gapGE (lacunasConsecutivas (sortedUnique codigos)),
      List.perm_insertionSort gapGE _, List.sorted_insertionSort gapGE _, ?_⟩
    cases codigos with
    | nil => exact absurd rfl hne
    | cons c cs => rfl

/-- Witness for C6 at the spec's own example `{1,2,3,7,8,10}`. -/
theorem analise_lacunas_codigos_spec_witness :
    ([1, 2, 3, 7, 8, 10] : List Int) ≠ [] ∧
    ((4 : Int), (6 : Int), (3 : Int)) ∈ lacunasConsecutivas (sortedUnique [1, 2, 3, 7, 8, 10]) ∧
    (analisar_lacunas_codigos [1, 2, 3, 7, 8, 10]).maiores_lacunas =
      [(4, 6, 3), (9, 9, 1)] :=
  ⟨by decide,
    by
      have h := (analise_lacunas_codigos_spec [1, 2, 3, 7, 8, 10] (by decide)).1 4 6 3
      exact h.mpr ⟨by decide, by decide, by decide, by decide, by decide⟩,
    (analise_lacunas_codigos_spec [1, 2, 3, 7, 8, 10] (by decide)).2.2.2.2⟩

/-! ## C7 — code-coverage analysis (`statistics_service.analisar_codigos_cadastro`)

Per record: non-dict entries are skipped entirely; `get("codigo_cadastro")`
of `None` (missing or null) or a value `int()` rejects counts as invalid;
parsable codes are collected.  With at least one code the function
reports count, min, max, span `max - min + 1`, density
`count / span * 100`, distinct count `len(set(codigos))`, duplicate
count `count - distinct`, and the gap analysis.  Empty input and
no-valid-codes input return fixed zero-shaped dicts (modelled as
dedicated constructors). -/

/-- Python `int(strvalue)` for a string: optional surrounding
whitespace, optional sign, then one or more ASCII digits. -/
def pyIntOfString (strvalue : String) : Option Int :=
  let cs := pyStrip strvalue.toList
  let (sign, r) := pySign cs
  if r ≠ [] ∧ r.all Char.isDigit then some (sign * (digitsToNat r : Int)) else none

/-- Python `int(q)` for a float: truncation toward zero. -/
def ratTrunc (q : ℚ) : Int := if q < 0 then ⌈q⌉ else ⌊q⌋

/-- Python `int(v)` as used in the `try int(codigo)` block: `None`,
lists and dicts raise (`TypeError`, caught by the caller), booleans are
ints, floats truncate, strings parse or raise (`ValueError`, caught). -/
def pyIntOf (v : JVal) : Option Int :=
  match v with
  | JVal.i n => some n
  | JVal.b x => some (if x then 1 else 0)
  | JVal.f q => some (ratTrunc q)
  | JVal.s strvalue => pyIntOfString strvalue
  | _ => none

/-- The codes collected by the extraction loop of
`analisar_codigos_cadastro` (dict records whose code parses). -/
def codigosValidos (cadastros : List JVal) : List Int :=
  cadastros.filterMap
    (fun c => if c.isObj then pyIntOf (c.get "codigo_cadastro") else none)

/-- The `codigos_invalidos` counter: dict records whose code is missing,
null, or unparsable. -/
def codigosInvalidos (cadastros : List JVal) : Nat :=
  (cadastros.filter
    (fun c => c.isObj && (pyIntOf (c.get "codigo_cadastro")).isNone)).length

/-- Result dict of `analisar_codigos_cadastro`: the three return shapes
(empty input, no valid codes, full result).  The `except ValueError`
branch around `min`/`max` is unreachable for a non-empty code list and
is not modelled. -/
inductive AnaliseCodigos where
  | semCadastros : AnaliseCodigos
  | semCodigosValidos (codigos_invalidos : Nat) : AnaliseCodigos
  | resultado (total codigos_invalidos : Nat) (menor_codigo maior_codigo : Int)
      (intervalo_cobertura : Int) (densidade_ocupacao : ℚ)
      (codigos_unicos duplicados : Nat) (lacunas : LacunasInfo) : AnaliseCodigos

/-- The part of `analisar_codigos_cadastro` after the extraction loop:
either the no-valid-codes dict or the full statistics (Python `min`/`max`
are left folds over the collected codes). -/
def analisarCodigosAux (codigos : List Int) (invalidos : Nat) : AnaliseCodigos :=
  match codigos with
  | [] => AnaliseCodigos.semCodigosValidos invalidos
  | c0 :: cs =>
      let menor := cs.foldl min c0
      let maior := cs.foldl max c0
      let cobertura := maior - menor + 1
      AnaliseCodigos.resultado (c0 :: cs).length invalidos
        menor maior cobertura
        (((c0 :: cs).length : ℚ) / (cobertura : ℚ) * 100)
        (c0 :: cs).dedup.length ((c0 :: cs).length - (c0 :: cs).dedup.length)
        (analisar_lacunas_codigos (c0 :: cs))

/-- `StatisticsService.analisar_codigos_cadastro`. -/
def analisar_codigos_cadastro (cadastros : List JVal) : AnaliseCodigos :=
  match cadastros with
  | [] => AnaliseCodigos.semCadastros
  | _ :: _ => analisarCodigosAux (codigosValidos cadastros) (codigosInvalidos cadastros)

theorem foldl_min_spec (cs : List Int) (c0 : Int) :
    cs.foldl min c0 ∈ c0 :: cs ∧ ∀ c ∈ c0 :: cs, cs.foldl min c0 ≤ c := by
  induction cs generalizing c0 with
  | nil => simp
  | cons x xs ih =>
      obtain ⟨hmem, hle⟩ := ih (min c0 x)
      rw [List.foldl_cons]
      have hbase : xs.foldl min (min c0 x) ≤ min c0 x := hle _ (List.mem_cons_self _ _)
      constructor
      · rcases List.mem_cons.mp hmem with heq | hmem2
        · rw [heq]
          rcases min_choice c0 x with hc | hc
          · rw [hc]
            exact List.mem_cons_self _ _
          · rw [hc]
            exact List.mem_cons_of_mem _ (List.mem_cons_self _ _)
        · exact List.mem_cons_of_mem _ (List.mem_cons_of_mem _ hmem2)
      · intro c hcmem
        rcases List.mem_cons.mp hcmem with rfl | hc2
        · exact le_trans hbase (min_le_left _ _)
        · rcases List.mem_cons.mp hc2 with rfl | hc3
          · exact le_trans hbase (min_le_right _ _)
          · exact hle c (List.mem_cons_of_mem _ hc3)

theorem foldl_max_spec (cs : List Int) (c0 : Int) :
    cs.foldl max c0 ∈ c0 :: cs ∧ ∀ c ∈ c0 :: cs, c ≤ cs.foldl max c0 := by
  induction cs generalizing c0 with
  | nil => simp
  | cons x xs ih =>
      obtain ⟨hmem, hle⟩ := ih (max c0 x)
      rw [List.foldl_cons]
      have hbase : max c0 x ≤ xs.foldl max (max c0 x) := hle _ (List.mem_cons_self _ _)
      constructor
      · rcases List.mem_cons.mp hmem with heq | hmem2
        · rw [heq]
          rcases max_choice c0 x with hc | hc
          · rw [hc]
            exact List.mem_cons_self _ _
          · rw [hc]
            exact List.mem_cons_of_mem _ (List.mem_cons_self _ _)
        · exact List.mem_cons_of_mem _ (List.mem_cons_of_mem _ hmem2)
      · intro c hcmem
        rcases List.mem_cons.mp hcmem with rfl | hc2
        · exact le_trans (le_max_left _ _) hbase
        · rcases List.mem_cons.mp hc2 with rfl | hc3
          · exact le_trans (le_max_right _ _) hbase
          · exact hle c (List.mem_cons_of_mem _ hc3)

/-- C7: with at least one integer-parsable `codigo_cadastro`, the
analysis reports count, min, max, span `max - min + 1`, density
`count / span * 100` and duplicate count `count - distinct`, with
missing/unparsable codes counted separately as invalid; codes
`{1,2,3,5}` give span 5 and density 80; the empty input yields the
zero-shaped result, raising nothing (the model is total). -/
theorem analise_codigos_cobertura (cadastros : List JVal)
    (h : codigosValidos cadastros ≠ []) :
    (∃ (menor maior : Int) (lac : LacunasInfo),
      analisar_codigos_cadastro cadastros =
        AnaliseCodigos.resultado (codigosValidos cadastros).length
          (codigosInvalidos cadastros) menor maior (maior - menor + 1)
          (((codigosValidos cadastros).length : ℚ) / ((maior - menor + 1 : Int) : ℚ) * 100)
          (codigosValidos cadastros).dedup.length
          ((codigosValidos cadastros).length - (codigosValidos cadastros).dedup.length)
          lac ∧
      menor ∈ codigosValidos cadastros ∧ (∀ c ∈ codigosValidos cadastros, menor ≤ c) ∧
      maior ∈ codigosValidos cadastros ∧ (∀ c ∈ codigosValidos cadastros, c ≤ maior) ∧
      (codigosValidos cadastros).dedup.length = (codigosValidos cadastros).toFinset.card) ∧
    analisar_codigos_cadastro [] = AnaliseCodigos.semCadastros ∧
    analisar_codigos_cadastro
        [JVal.obj [("codigo_cadastro", JVal.i 1)], JVal.obj [("codigo_cadastro", JVal.i 2)],
         JVal.obj [("codigo_cadastro", JVal.i 3)], JVal.obj [("codigo_cadastro", JVal.i 5)]] =
      AnaliseCodigos.resultado 4 0 1 5 5 80 4 0 (analisar_lacunas_codigos [1, 2, 3, 5]) := by
  refine ⟨?_, rfl, ?_⟩
  · cases cadastros with
    | nil => exact absurd rfl h
    | cons c rest =>
        rcases hcv : codigosValidos (c :: rest) with _ | ⟨c0, cs⟩
        · exact absurd hcv h
        · have hrw : analisar_codigos_cadastro (c :: rest) =
              analisarCodigosAux (codigosValidos (c :: rest))
                (codigosInvalidos (c :: rest)) := rfl
          rw [hcv] at hrw
          obtain ⟨hminmem, hminle⟩ := foldl_min_spec cs c0
          obtain ⟨hmaxmem, hmaxle⟩ := foldl_max_spec cs c0
          exact ⟨cs.foldl min c0, cs.foldl max c0, analisar_lacunas_codigos (c0 :: cs),
            hrw, hminmem, hminle, hmaxmem, hmaxle, (List.card_toFinset (c0 :: cs)).symm⟩
  · have hcv : codigosValidos
        [JVal.obj [("codigo_cadastro", JVal.i 1)], JVal.obj [("codigo_cadastro", JVal.i 2)],
         JVal.obj [("codigo_cadastro", JVal.i 3)], JVal.obj [("codigo_cadastro", JVal.i 5)]] =
        [1, 2, 3, 5] := by decide
    have hinv : codigosInvalidos
        [JVal.obj [("codigo_cadastro", JVal.i 1)], JVal.obj [("codigo_cadastro", JVal.i 2)],
         JVal.obj [("codigo_cadastro", JVal.i 3)], JVal.obj [("codigo_cadastro", JVal.i 5)]] =
        0 := by decide
    have hrw : analisar_codigos_cadastro
        [JVal.obj [("codigo_cadastro", JVal.i 1)], JVal.obj [("codigo_cadastro", JVal.i 2)],
         JVal.obj [("codigo_cadastro", JVal.i 3)], JVal.obj [("codigo_cadastro", JVal.i 5)]] =
        analisarCodigosAux [1, 2, 3, 5] 0 := by
      show analisarCodigosAux
        (codigosValidos
          [JVal.obj [("codigo_cadastro", JVal.i 1)], JVal.obj [("codigo_cadastro", JVal.i 2)],
           JVal.obj [("codigo_cadastro", JVal.i 3)], JVal.obj [("codigo_cadastro", JVal.i 5)]])
        (codigosInvalidos
          [JVal.obj [("codigo_cadastro", JVal.i 1)], JVal.obj [("codigo_cadastro", JVal.i 2)],
           JVal.obj [("codigo_cadastro", JVal.i 3)], JVal.obj [("codigo_cadastro", JVal.i 5)]]) =
        analisarCodigosAux [1, 2, 3, 5] 0
      rw [hcv, hinv]
    rw [hrw]
    show AnaliseCodigos.resultado 4 0 ([2,3,5].foldl min 1) ([2,3,5].foldl max 1) _ _ 4 _ _ =
      AnaliseCodigos.resultado 4 0 1 5 5 80 4 0 (analisar_lacunas_codigos [1, 2, 3, 5])
    norm_num [analisarCodigosAux]

/-- Witness for C7: a one-record batch with a parsable code. -/
theorem analise_codigos_cobertura_witness :
    codigosValidos [JVal.obj [("codigo_cadastro", JVal.s "42")]] ≠ [] ∧
    (∃ (menor maior : Int) (lac : LacunasInfo),
      analisar_codigos_cadastro [JVal.obj [("codigo_cadastro", JVal.s "42")]] =
        AnaliseCodigos.resultado
          (codigosValidos [JVal.obj [("codigo_cadastro", JVal.s "42")]]).length
          (codigosInvalidos [JVal.obj [("codigo_cadastro", JVal.s "42")]])
          menor maior (maior - menor + 1)
          (((codigosValidos [JVal.obj [("codigo_cadastro", JVal.s "42")]]).length : ℚ) /
            ((maior - menor + 1 : Int) : ℚ) * 100)
          (codigosValidos [JVal.obj [("codigo_cadastro", JVal.s "42")]]).dedup.length
          ((codigosValidos [JVal.obj [("codigo_cadastro", JVal.s "42")]]).length -
            (codigosValidos [JVal.obj [("codigo_cadastro", JVal.s "42")]]).dedup.length)
          lac ∧
      menor ∈ codigosValidos [JVal.obj [("codigo_cadastro", JVal.s "42")]] ∧
      (∀ c ∈ codigosValidos [JVal.obj [("codigo_cadastro", JVal.s "42")]], menor ≤ c) ∧
      maior ∈ codigosValidos [JVal.obj [("codigo_cadastro", JVal.s "42")]] ∧
      (∀ c ∈ codigosValidos [JVal.obj [("codigo_cadastro", JVal.s "42")]], c ≤ maior) ∧
      (codigosValidos [JVal.obj [("codigo_cadastro", JVal.s "42")]]).dedup.length =
        (codigosValidos [JVal.obj [("codigo_cadastro", JVal.s "42")]]).toFinset.card) :=
  ⟨by decide,
    (analise_codigos_cobertura [JVal.obj [("codigo_cadastro", JVal.s "42")]] (by decide)).1⟩

/-! ## C2, C8, C10 — persistence loader
(`service/database_service.py` and `repository/database_repository.py`)

The committed session is modelled as a list of ORM rows.  Column values
stay dynamic (`JVal`): `atualizar_cadastro` assigns incoming JSON values
verbatim via `setattr`, so a column can hold whatever the batch carried.
SQLAlchemy instrumentation is modelled as plain field access:
`hasattr(cadastro, campo)` is membership in the fixed attribute list,
`setattr(cadastro, campo, valor)` is a field update (this also applies
to the three relationship attributes).  SQL/Python equality on the
`codigo_cadastro` business key is modelled for scalar values (numeric
types compare by value across `int`/`float`/`bool`, strings by content);
container-valued keys compare unequal. -/

/-- A Python/SQL scalar comparison key: numbers compare across
`int`/`float`/`bool`, strings by content. -/
inductive PyKey where
  | num : ℚ → PyKey
  | strv : String → PyKey
  | noneKey : PyKey
deriving DecidableEq

/-- The comparison key of a scalar value (`None` for containers, which
are not usable as business keys). -/
def pyKeyOf : JVal → Option PyKey
  | JVal.null => some PyKey.noneKey
  | JVal.b x => some (PyKey.num (if x then 1 else 0))
  | JVal.i n => some (PyKey.num (n : ℚ))
  | JVal.f q => some (PyKey.num q)
  | JVal.s v2 => some (PyKey.strv v2)
  | JVal.arr _ => none
  | JVal.obj _ => none

/-- Python `==` / SQL `=` on scalar business-key values. -/
def pyEqVal (a c : JVal) : Bool :=
  match pyKeyOf a, pyKeyOf c with
  | some k1, some k2 => k1 == k2
  | _, _ => false

/-- One row of `cadastros_imobiliarios` with its child collections
(`model/database_models.py`). -/
structure DBRow where
  id : Int
  codigo_cadastro : JVal
  situacao : JVal
  categoria : JVal
  tipo_cadastro : JVal
  area_terreno : JVal
  area_construida : JVal
  area_construida_averbada : JVal
  area_total_construida : JVal
  data_cadastro : JVal
  created_at : JVal
  updated_at : JVal
  dados_originais : JVal
  ativo : JVal
  proprietarios : JVal
  enderecos : JVal
  zoneamentos : JVal

/-- The ORM attributes of `CadastroImobiliario`: columns, audit fields
and the three relationships — the names for which `hasattr` holds. -/
inductive CadAttr where
  | cid | ccodigo_cadastro | csituacao | ccategoria | ctipo_cadastro
  | carea_terreno | carea_construida | carea_construida_averbada | carea_total_construida
  | cdata_cadastro | ccreated_at | cupdated_at | cdados_originais | cativo
  | cproprietarios | cenderecos | czoneamentos
deriving DecidableEq

/-- The Python name of each ORM attribute. -/
def attrNameOf : CadAttr → String
  | CadAttr.cid => "id"
  | CadAttr.ccodigo_cadastro => "codigo_cadastro"
  | CadAttr.csituacao => "situacao"
  | CadAttr.ccategoria => "categoria"
  | CadAttr.ctipo_cadastro => "tipo_cadastro"
  | CadAttr.carea_terreno => "area_terreno"
  | CadAttr.carea_construida => "area_construida"
  | CadAttr.carea_construida_averbada => "area_construida_averbada"
  | CadAttr.carea_total_construida => "area_total_construida"
  | CadAttr.cdata_cadastro => "data_cadastro"
  | CadAttr.ccreated_at => "created_at"
  | CadAttr.cupdated_at => "updated_at"
  | CadAttr.cdados_originais => "dados_originais"
  | CadAttr.cativo => "ativo"
  | CadAttr.cproprietarios => "proprietarios"
  | CadAttr.cenderecos => "enderecos"
  | CadAttr.czoneamentos => "zoneamentos"

/-- Name-to-attribute table of the ORM class. -/
def attrList : List (String × CadAttr) :=
  [("id", CadAttr.cid), ("codigo_cadastro", CadAttr.ccodigo_cadastro),
   ("situacao", CadAttr.csituacao), ("categoria", CadAttr.ccategoria),
   ("tipo_cadastro", CadAttr.ctipo_cadastro), ("area_terreno", CadAttr.carea_terreno),
   ("area_construida", CadAttr.carea_construida),
   ("area_construida_averbada", CadAttr.carea_construida_averbada),
   ("area_total_construida", CadAttr.carea_total_construida),
   ("data_cadastro", CadAttr.cdata_cadastro), ("created_at", CadAttr.ccreated_at),
   ("updated_at", CadAttr.cupdated_at), ("dados_originais", CadAttr.cdados_originais),
   ("ativo", CadAttr.cativo), ("proprietarios", CadAttr.cproprietarios),
   ("enderecos", CadAttr.cenderecos), ("zoneamentos", CadAttr.czoneamentos)]

/-- Resolve an attribute name: `hasattr(cadastro, k)` holds exactly when
this is `some`. -/
def attrOf (k : String) : Option CadAttr := attrList.lookup k

/-- Read an ORM attribute by resolved attribute (the `id` column reads
as an integer value). -/
def fieldOf (row : DBRow) : CadAttr → JVal
  | CadAttr.cid => JVal.i row.id
  | CadAttr.ccodigo_cadastro => row.codigo_cadastro
  | CadAttr.csituacao => row.situacao
  | CadAttr.ccategoria => row.categoria
  | CadAttr.ctipo_cadastro => row.tipo_cadastro
  | CadAttr.carea_terreno => row.area_terreno
  | CadAttr.carea_construida => row.area_construida
  | CadAttr.carea_construida_averbada => row.area_construida_averbada
  | CadAttr.carea_total_construida => row.area_total_construida
  | CadAttr.cdata_cadastro => row.data_cadastro
  | CadAttr.ccreated_at => row.created_at
  | CadAttr.cupdated_at => row.updated_at
  | CadAttr.cdados_originais => row.dados_originais
  | CadAttr.cativo => row.ativo
  | CadAttr.cproprietarios => row.proprietarios
  | CadAttr.cenderecos => row.enderecos
  | CadAttr.czoneamentos => row.zoneamentos

/-- Read an ORM attribute by name (`None` result = no such attribute). -/
def getAttr (row : DBRow) (k : String) : Option JVal := (attrOf k).map (fieldOf row)

/-- Write an ORM attribute by resolved attribute.  (`id` is never
assigned: the update loop skips it explicitly.) -/
def setByAttr (row : DBRow) (a : CadAttr) (v : JVal) : DBRow :=
  match a with
  | CadAttr.cid => row
  | CadAttr.ccodigo_cadastro => { row with codigo_cadastro := v }
  | CadAttr.csituacao => { row with situacao := v }
  | CadAttr.ccategoria => { row with categoria := v }
  | CadAttr.ctipo_cadastro => { row with tipo_cadastro := v }
  | CadAttr.carea_terreno => { row with area_terreno := v }
  | CadAttr.carea_construida => { row with area_construida := v }
  | CadAttr.carea_construida_averbada => { row with area_construida_averbada := v }
  | CadAttr.carea_total_construida => { row with area_total_construida := v }
  | CadAttr.cdata_cadastro => { row with data_cadastro := v }
  | CadAttr.ccreated_at => { row with created_at := v }
  | CadAttr.cupdated_at => { row with updated_at := v }
  | CadAttr.cdados_originais => { row with dados_originais := v }
  | CadAttr.cativo => { row with ativo := v }
  | CadAttr.cproprietarios => { row with proprietarios := v }
  | CadAttr.cenderecos => { row with enderecos := v }
  | CadAttr.czoneamentos => { row with zoneamentos := v }

/-- `setattr(cadastro, k, v)`. -/
def setattrRow (row : DBRow) (k : String) (v : JVal) : DBRow :=
  match attrOf k with
  | some a => setByAttr row a v
  | none => row

/-- The `for campo, valor in novos_dados.items()` loop of
`atualizar_cadastro`: assign each incoming field whose name is an ORM
attribute other than `id`. -/
def applyFields (row : DBRow) (fields : List (String × JVal)) : DBRow :=
  fields.foldl
    (fun r kv => if (attrOf kv.1).isSome ∧ kv.1 ≠ "id" then setattrRow r kv.1 kv.2 else r)
    row

/-- `DatabaseRepository.atualizar_cadastro` applied to a row already
found by the business-key query: assign incoming fields verbatim, then
refresh `updated_at`. -/
def atualizar_cadastro (row : DBRow) (novos_dados : List (String × JVal)) (now : JVal) :
    DBRow :=
  let row2 := applyFields row novos_dados
  { row2 with updated_at := now }

/-- Update the first row matching the business key (the ORM query's
`.first()`); the loader only calls this after a successful existence
check. -/
def atualizar_no_db (db : List DBRow) (codigo : JVal) (novos : List (String × JVal))
    (now : JVal) : List DBRow :=
  match db with
  | [] => []
  | r :: rs =>
      if pyEqVal r.codigo_cadastro codigo then atualizar_cadastro r novos now :: rs
      else r :: atualizar_no_db rs codigo novos now

/-- `DatabaseRepository.verificar_cadastro_existe`. -/
def verificar_cadastro_existe (db : List DBRow) (codigo : JVal) : Bool :=
  db.any (fun row => pyEqVal row.codigo_cadastro codigo)

/-- `{1: "terreno", 2: "unidade", 3: "rural"}.get(tipo_cadastro,
"desconhecido")` as run by `CadastroImobiliario.__init__` (Python dict
lookup equates `1`, `1.0` and `True`). -/
def tipoCadastroCategoria (tipo : JVal) : JVal :=
  match tipo with
  | JVal.i n =>
      if n = 1 then JVal.s "terreno"
      else if n = 2 then JVal.s "unidade"
      else if n = 3 then JVal.s "rural"
      else JVal.s "desconhecido"
  | JVal.b x => if x then JVal.s "terreno" else JVal.s "desconhecido"
  | JVal.f q =>
      if q = 1 then JVal.s "terreno"
      else if q = 2 then JVal.s "unidade"
      else if q = 3 then JVal.s "rural"
      else JVal.s "desconhecido"
  | _ => JVal.s "desconhecido"

/-- A float column value produced by `self._parse_float(...)` during
insert (`None` on parse failure). -/
def jFloatField (record : JVal) (k : String) : JVal :=
  match parse_float (JVal.get record k) with
  | some q => JVal.f q
  | none => JVal.null

/-- The scalar part of the row built by `inserir_cadastro_completo` via
`CadastroImobiliario(...)`: kwargs from the record, then the
`__init__` derivations `ativo = (situacao == "1")` and
`categoria = tipo_cadastro_map.get(tipo_cadastro, "desconhecido")`
(overriding the `categoria` kwarg); child collections start empty. -/
def inserirRowScalars (record : JVal) (rid : Int) (now : JVal) : DBRow :=
  { id := rid
    codigo_cadastro := JVal.get record "codigo_cadastro"
    situacao := JVal.get record "situacao"
    categoria := tipoCadastroCategoria (JVal.get record "tipo_cadastro")
    tipo_cadastro := JVal.get record "tipo_cadastro"
    area_terreno := jFloatField record "area_terreno"
    area_construida := jFloatField record "area_construida"
    area_construida_averbada := jFloatField record "area_construida_averbada"
    area_total_construida := jFloatField record "area_total_construida"
    data_cadastro := JVal.get record "data_cadastro"
    created_at := now
    updated_at := now
    dados_originais := record
    ativo := JVal.b (pyEqVal (JVal.get record "situacao") (JVal.s "1"))
    proprietarios := JVal.arr []
    enderecos := JVal.arr []
    zoneamentos := JVal.arr [] }

/-- `dados_cadastro.get(k, [])`: the stored value when the key is
present (even `None`), else `[]`. -/
def getDefaultArr (record : JVal) (k : String) : JVal :=
  match record with
  | JVal.obj fields =>
      match fields.lookup k with
      | some v => v
      | none => JVal.arr []
  | _ => JVal.arr []

/-- `for x in v: if isinstance(x, dict): session.add(...)` — the child
rows added from one collection value.  Iterating a list keeps its dict
entries; iterating a string (its characters) or a dict (its keys)
yields no dicts; `None` and numbers are not iterable (`TypeError`,
caught by the caller's blanket `except`). -/
def iterChildren (v : JVal) : Option (List JVal) :=
  match v with
  | JVal.arr xs => some (xs.filter JVal.isObj)
  | JVal.s _ => some []
  | JVal.obj _ => some []
  | _ => none

/-- `DatabaseRepository.inserir_cadastro_completo`: build the parent row
(flushed immediately), then insert owners, addresses and zoning in that
order.  An exception while iterating a child collection is caught and
`None` returned, but the rows already added to the session stay — there
is no per-record rollback. -/
def inserir_cadastro_completo (db : List DBRow) (record : JVal) (now : JVal) :
    List DBRow × Option Int :=
  let rid := (db.length : Int) + 1
  let base := inserirRowScalars record rid now
  match iterChildren (getDefaultArr record "proprietariosbci") with
  | none => (db ++ [base], none)
  | some props =>
      let r1 := { base with proprietarios := JVal.arr props }
      match iterChildren (getDefaultArr record "enderecos") with
      | none => (db ++ [r1], none)
      | some ends =>
          let r2 := { r1 with enderecos := JVal.arr ends }
          match iterChildren (getDefaultArr record "zoneamentos") with
          | none => (db ++ [r2], none)
          | some zons => (db ++ [{ r2 with zoneamentos := JVal.arr zons }], some rid)

/-- Per-batch counters and diagnostics of `_processar_lote_cadastros`.
The interpolated parts of the error messages (record index, code value)
are abstracted away; only the message count and truncation matter. -/
structure LoteResult where
  total_registros : Nat
  inseridos : Nat
  atualizados : Nat
  erros : Nat
  erros_detalhes : List String

/-- The audit row (`ProcessamentoLog`) written after the loop. -/
structure LogData where
  arquivo_origem : String
  total_registros : Nat
  registros_inseridos : Nat
  registros_atualizados : Nat
  registros_erro : Nat
  status : String
  erro_detalhes : String

/-- The record loop of `_processar_lote_cadastros`: non-dict records
raise inside the `try` (`… has no attribute 'get'`) and count as
errors; falsy codes (`None`, `0`, `""`, …) count as errors; existing
codes are updated, new codes inserted; a failed insert counts as an
error.  Each failure appends one message and the loop always continues. -/
def processarAux (now : JVal) :
    List JVal → List DBRow → Nat × Nat × Nat × List String →
      List DBRow × Nat × Nat × Nat × List String
  | [], db, acc => (db, acc)
  | cadastro :: rest, db, (ins, upd, err, msgs) =>
      match cadastro with
      | JVal.obj fields =>
          let codigo := JVal.get (JVal.obj fields) "codigo_cadastro"
          if codigo.isTruthy = false then
            processarAux now rest db (ins, upd, err + 1, msgs ++ ["Cadastro sem código"])
          else if verificar_cadastro_existe db codigo then
            processarAux now rest (atualizar_no_db db codigo fields now) (ins, upd + 1, err, msgs)
          else
            match inserir_cadastro_completo db (JVal.obj fields) now with
            | (db2, some _) => processarAux now rest db2 (ins + 1, upd, err, msgs)
            | (db2, none) =>
                processarAux now rest db2 (ins, upd, err + 1, msgs ++ ["Erro ao inserir"])
      | _ => processarAux now rest db (ins, upd, err + 1, msgs ++ ["Erro no registro"])

/-- `DatabaseService._processar_lote_cadastros`: run the loop, then
build the result dict and the audit-log row (status `sucesso` when no
errors, `parcial` when some insert/update succeeded alongside errors,
`erro` otherwise; only the first 10 messages are persisted). -/
def processar_lote_cadastros (db : List DBRow) (cadastros : List JVal) (arquivo : String)
    (now : JVal) : List DBRow × LoteResult × LogData :=
  let out := processarAux now cadastros db (0, 0, 0, [])
  let db2 := out.1
  let ins := out.2.1
  let upd := out.2.2.1
  let err := out.2.2.2.1
  let msgs := out.2.2.2.2
  let status := if err = 0 then "sucesso" else if ins + upd > 0 then "parcial" else "erro"
  (db2,
    ⟨cadastros.length, ins, upd, err, msgs⟩,
    ⟨arquivo, cadastros.length, ins, upd, err, status,
      String.intercalate "\n" (msgs.take 10)⟩)

theorem processarAux_contadores (now : JVal) :
    ∀ (cadastros : List JVal) (db : List DBRow) (ins upd err : Nat) (msgs : List String),
      ∃ db2 ins2 upd2 err2 msgs2,
        processarAux now cadastros db (ins, upd, err, msgs) = (db2, ins2, upd2, err2, msgs2) ∧
        ins2 + upd2 + err2 = ins + upd + err + cadastros.length ∧
        msgs2.length + err = err2 + msgs.length := by
  intro cadastros
  induction cadastros with
  | nil =>
      intro db ins upd err msgs
      exact ⟨db, ins, upd, err, msgs, rfl, by simp, by omega⟩
  | cons c rest ih =>
      intro db ins upd err msgs
      cases c with
      | obj fields =>
          simp only [processarAux]
          split_ifs with h1 h2
          · obtain ⟨db2, i2, u2, e2, m2, heq, hsum, hmsg⟩ :=
              ih db ins upd (err + 1) (msgs ++ ["Cadastro sem código"])
            refine ⟨db2, i2, u2, e2, m2, heq, ?_, ?_⟩
            · simp only [List.length_cons]
              omega
            · rw [List.length_append] at hmsg
              simp only [List.length_singleton] at hmsg
              omega
          · obtain ⟨db2, i2, u2, e2, m2, heq, hsum, hmsg⟩ :=
              ih (atualizar_no_db db (JVal.get (JVal.obj fields) "codigo_cadastro") fields now)
                ins (upd + 1) err msgs
            refine ⟨db2, i2, u2, e2, m2, heq, ?_, by omega⟩
            simp only [List.length_cons]
            omega
          · rcases hins : inserir_cadastro_completo db (JVal.obj fields) now with ⟨dbi, ok⟩
            cases ok with
            | some rid =>
                obtain ⟨db2, i2, u2, e2, m2, heq, hsum, hmsg⟩ :=
                  ih dbi (ins + 1) upd err msgs
                refine ⟨db2, i2, u2, e2, m2, heq, ?_, by omega⟩
                simp only [List.length_cons]
                omega
            | none =>
                obtain ⟨db2, i2, u2, e2, m2, heq, hsum, hmsg⟩ :=
                  ih dbi ins upd (err + 1) (msgs ++ ["Erro ao inserir"])
                refine ⟨db2, i2, u2, e2, m2, heq, ?_, ?_⟩
                · simp only [List.length_cons]
                  omega
                · rw [List.length_append] at hmsg
                  simp only [List.length_singleton] at hmsg
                  omega
      | null =>
          simp only [processarAux]
          obtain ⟨db2, i2, u2, e2, m2, heq, hsum, hmsg⟩ :=
            ih db ins upd (err + 1) (msgs ++ ["Erro no registro"])
          refine ⟨db2, i2, u2, e2, m2, heq, ?_, ?_⟩
          · simp only [List.length_cons]
            omega
          · rw [List.length_append] at hmsg
            simp only [List.length_singleton] at hmsg
            omega
      | b x =>
          simp only [processarAux]
          obtain ⟨db2, i2, u2, e2, m2, heq, hsum, hmsg⟩ :=
            ih db ins upd (err + 1) (msgs ++ ["Erro no registro"])
          refine ⟨db2, i2, u2, e2, m2, heq, ?_, ?_⟩
          · simp only [List.length_cons]
            omega
          · rw [List.length_append] at hmsg
            simp only [List.length_singleton] at hmsg
            omega
      | i n =>
          simp only [processarAux]
          obtain ⟨db2, i2, u2, e2, m2, heq, hsum, hmsg⟩ :=
            ih db ins upd (err + 1) (msgs ++ ["Erro no registro"])
          refine ⟨db2, i2, u2, e2, m2, heq, ?_, ?_⟩
          · simp only [List.length_cons]
            omega
          · rw [List.length_append] at hmsg
            simp only [List.length_singleton] at hmsg
            omega
      | f q =>
          simp only [processarAux]
          obtain ⟨db2, i2, u2, e2, m2, heq, hsum, hmsg⟩ :=
            ih db ins upd (err + 1) (msgs ++ ["Erro no registro"])
          refine ⟨db2, i2, u2, e2, m2, heq, ?_, ?_⟩
          · simp only [List.length_cons]
            omega
          · rw [List.length_append] at hmsg
            simp only [List.length_singleton] at hmsg
            omega
      | s strv =>
          simp only [processarAux]
          obtain ⟨db2, i2, u2, e2, m2, heq, hsum, hmsg⟩ :=
            ih db ins upd (err + 1) (msgs ++ ["Erro no registro"])
          refine ⟨db2, i2, u2, e2, m2, heq, ?_, ?_⟩
          · simp only [List.length_cons]
            omega
          · rw [List.length_append] at hmsg
            simp only [List.length_singleton] at hmsg
            omega
      | arr xs =>
          simp only [processarAux]
          obtain ⟨db2, i2, u2, e2, m2, heq, hsum, hmsg⟩ :=
            ih db ins upd (err + 1) (msgs ++ ["Erro no registro"])
          refine ⟨db2, i2, u2, e2, m2, heq, ?_, ?_⟩
          · simp only [List.length_cons]
            omega
          · rw [List.length_append] at hmsg
            simp only [List.length_singleton] at hmsg
            omega

theorem status_trichotomy (e p : Nat) :
    ((if e = 0 then "sucesso" else if 0 < p then "parcial" else "erro") = "sucesso" ↔ e = 0) ∧
    ((if e = 0 then "sucesso" else if 0 < p then "parcial" else "erro") = "parcial" ↔
      (0 < e ∧ 0 < p)) ∧
    ((if e = 0 then "sucesso" else if 0 < p then "parcial" else "erro") = "erro" ↔
      (0 < e ∧ p = 0)) := by
  by_cases he : e = 0
  · rw [if_pos he]
    refine ⟨by simp [he], ?_, ?_⟩
    · constructor
      · intro hcon
        exact absurd hcon (by decide)
      · rintro ⟨h1, -⟩
        omega
    · constructor
      · intro hcon
        exact absurd hcon (by decide)
      · rintro ⟨h1, -⟩
        omega
  · rw [if_neg he]
    by_cases hp : 0 < p
    · rw [if_pos hp]
      refine ⟨?_, ?_, ?_⟩
      · constructor
        · intro hcon
          exact absurd hcon (by decide)
        · intro hcon
          exact absurd hcon he
      · exact ⟨fun _ => ⟨by omega, hp⟩, fun _ => rfl⟩
      · constructor
        · intro hcon
          exact absurd hcon (by decide)
        · rintro ⟨-, h2⟩
          omega
    · rw [if_neg hp]
      refine ⟨?_, ?_, ?_⟩
      · constructor
        · intro hcon
          exact absurd hcon (by decide)
        · intro hcon
          exact absurd hcon he
      · constructor
        · intro hcon
          exact absurd hcon (by decide)
        · rintro ⟨-, h2⟩
          omega
      · exact ⟨fun _ => ⟨by omega, by omega⟩, fun _ => rfl⟩

/-- C8: every per-record failure adds one to the error counter and one
message to the detail list without aborting the loop (the three
counters always sum to the batch size), only the first 10 messages
reach the persisted audit detail, and the audit status is `sucesso`
exactly when the error count is zero, `parcial` exactly when some
insert or update succeeded alongside errors, and `erro` exactly when
no record succeeded. -/
theorem loader_erros_e_status (db : List DBRow) (cadastros : List JVal) (arquivo : String)
    (now : JVal) :
    ∃ db2 res log,
      processar_lote_cadastros db cadastros arquivo now = (db2, res, log) ∧
      res.inseridos + res.atualizados + res.erros = cadastros.length ∧
      res.erros_detalhes.length = res.erros ∧
      log.erro_detalhes = String.intercalate "\n" (res.erros_detalhes.take 10) ∧
      log.registros_inseridos = res.inseridos ∧
      log.registros_atualizados = res.atualizados ∧
      log.registros_erro = res.erros ∧
      (log.status = "sucesso" ↔ res.erros = 0) ∧
      (log.status = "parcial" ↔ (0 < res.erros ∧ 0 < res.inseridos + res.atualizados)) ∧
      (log.status = "erro" ↔ (0 < res.erros ∧ res.inseridos + res.atualizados = 0)) := by
  obtain ⟨db2, i2, u2, e2, m2, heq, hsum, hmsg⟩ :=
    processarAux_contadores now cadastros db 0 0 0 []
  have hout : processar_lote_cadastros db cadastros arquivo now =
      (db2, ⟨cadastros.length, i2, u2, e2, m2⟩,
        ⟨arquivo, cadastros.length, i2, u2, e2,
          if e2 = 0 then "sucesso" else if 0 < i2 + u2 then "parcial" else "erro",
          String.intercalate "\n" (m2.take 10)⟩) := by
    unfold processar_lote_cadastros
    rw [heq]
  obtain ⟨hs1, hs2, hs3⟩ := status_trichotomy e2 (i2 + u2)
  refine ⟨_, _, _, hout, ?_, ?_, ?_, rfl, rfl, rfl, ?_, ?_, ?_⟩
  · show i2 + u2 + e2 = cadastros.length
    omega
  · show m2.length = e2
    simp only [List.length_nil] at hmsg
    omega
  · rfl
  · exact hs1
  · exact hs2
  · exact hs3


theorem lookup_mem_pairs {α β : Type} [BEq α] [LawfulBEq α] (l : List (α × β)) (k : α)
    (b : β) (h : l.lookup k = some b) : (k, b) ∈ l := by
  induction l with
  | nil => cases h
  | cons e rest ih =>
      obtain ⟨k1, v1⟩ := e
      simp only [List.lookup] at h
      cases hbe : k == k1 with
      | true =>
          rw [hbe] at h
          injection h with h2
          have hk : k = k1 := eq_of_beq hbe
          subst hk
          subst h2
          exact List.mem_cons_self _ _
      | false =>
          rw [hbe] at h
          exact List.mem_cons_of_mem _ (ih h)

theorem attrOf_name {k : String} {a : CadAttr} (h : attrOf k = some a) :
    k = attrNameOf a := by
  have hmem : (k, a) ∈ attrList := lookup_mem_pairs attrList k a h
  have hall : ∀ p ∈ attrList, p.1 = attrNameOf p.2 := by decide
  exact hall (k, a) hmem

theorem setByAttr_id (row : DBRow) (a : CadAttr) (v : JVal) :
    (setByAttr row a v).id = row.id := by
  cases a <;> rfl

theorem fieldOf_setByAttr_same (row : DBRow) (a : CadAttr) (v : JVal)
    (ha : a ≠ CadAttr.cid) : fieldOf (setByAttr row a v) a = v := by
  cases a <;> first | rfl | exact absurd rfl ha

theorem fieldOf_setByAttr_other (row : DBRow) (a a2 : CadAttr) (v : JVal) (hne : a ≠ a2) :
    fieldOf (setByAttr row a v) a2 = fieldOf row a2 := by
  cases a <;> cases a2 <;> first | rfl | exact absurd rfl hne

theorem getAttr_setattrRow_same (row : DBRow) (k : String) (v : JVal) (a : CadAttr)
    (ha : attrOf k = some a) (hne : k ≠ "id") :
    getAttr (setattrRow row k v) k = some v := by
  have hacid : a ≠ CadAttr.cid := by
    intro hcon
    subst hcon
    exact hne (attrOf_name ha)
  unfold getAttr setattrRow
  rw [ha]
  simp only [Option.map_some']
  rw [fieldOf_setByAttr_same row a v hacid]

theorem getAttr_setattrRow_other (row : DBRow) (k1 k : String) (v : JVal) (hne : k1 ≠ k) :
    getAttr (setattrRow row k1 v) k = getAttr row k := by
  unfold getAttr setattrRow
  cases h1 : attrOf k1 with
  | none => rfl
  | some a1 =>
      cases h2 : attrOf k with
      | none => rfl
      | some a2 =>
          have ha12 : a1 ≠ a2 := by
            intro hcon
            subst hcon
            exact hne ((attrOf_name h1).trans (attrOf_name h2).symm)
          simp only [Option.map_some']
          rw [fieldOf_setByAttr_other row a1 a2 v ha12]

theorem getAttr_set_updated_at (row : DBRow) (now : JVal) (k : String)
    (hk : k ≠ "updated_at") :
    getAttr { row with updated_at := now } k = getAttr row k := by
  unfold getAttr
  cases h2 : attrOf k with
  | none => rfl
  | some a2 =>
      have ha : a2 ≠ CadAttr.cupdated_at := by
        intro hcon
        subst hcon
        exact hk (attrOf_name h2)
      simp only [Option.map_some']
      cases a2 <;> first | rfl | exact absurd rfl ha

theorem applyFields_id (fields : List (String × JVal)) :
    ∀ row : DBRow, (applyFields row fields).id = row.id := by
  induction fields with
  | nil =>
      intro row
      rfl
  | cons kv rest ih =>
      intro row
      have hstep : applyFields row (kv :: rest) =
          applyFields
            (if (attrOf kv.1).isSome ∧ kv.1 ≠ "id" then setattrRow row kv.1 kv.2 else row)
            rest := rfl
      rw [hstep, ih]
      split_ifs with hcond
      · unfold setattrRow
        cases h1 : attrOf kv.1 with
        | none => rfl
        | some a => exact setByAttr_id row a kv.2
      · rfl

theorem getAttr_applyFields (fields : List (String × JVal)) :
    ∀ (row : DBRow) (k : String), (attrOf k).isSome → k ≠ "id" →
      (fields.map Prod.fst).Nodup →
      getAttr (applyFields row fields) k =
        (match fields.lookup k with
         | some v => some v
         | none => getAttr row k) := by
  induction fields with
  | nil =>
      intro row k hk hne hnd
      rfl
  | cons kv rest ih =>
      intro row k hk hne hnd
      obtain ⟨k1, v1⟩ := kv
      simp only [List.map_cons, List.nodup_cons] at hnd
      obtain ⟨hk1notin, hndrest⟩ := hnd
      have hstep : applyFields row ((k1, v1) :: rest) =
          applyFields
            (if (attrOf k1).isSome ∧ k1 ≠ "id" then setattrRow row k1 v1 else row)
            rest := rfl
      rw [hstep]
      by_cases hkk : k1 = k
      · subst hkk
        rw [if_pos ⟨hk, hne⟩]
        rw [ih _ _ hk hne hndrest]
        have hlrest : rest.lookup k1 = none :=
          lookup_absent rest k1
            (fun e he hcon => hk1notin (hcon ▸ List.mem_map_of_mem Prod.fst he))
        rw [hlrest]
        have hlhead : ((k1, v1) :: rest).lookup k1 = some v1 := by
          simp [List.lookup]
        rw [hlhead]
        obtain ⟨a, ha⟩ := Option.isSome_iff_exists.mp hk
        exact getAttr_setattrRow_same row k1 v1 a ha hne
      · have hlcons : ((k1, v1) :: rest).lookup k = rest.lookup k := by
          have hne2 : (k == k1) = false :=
            beq_eq_false_iff_ne.mpr (fun hcon => hkk hcon.symm)
          simp [List.lookup, hne2]
        rw [hlcons, ih _ _ hk hne hndrest]
        cases hr : rest.lookup k with
        | some v => rfl
        | none =>
            split_ifs with hcond
            · exact getAttr_setattrRow_other row k1 k v1 hkk
            · rfl

/-- `DatabaseRepository.atualizar_cadastro` body on a found row (the
query/`return False` wrapper is handled at the call site in
`atualizar_no_db`). -/
theorem atualizar_cadastro_getAttr (row : DBRow) (fields : List (String × JVal)) (now : JVal)
    (hnd : (fields.map Prod.fst).Nodup) (k : String) (hk : (attrOf k).isSome = true)
    (hne : k ≠ "id") (hnupd : k ≠ "updated_at") :
    getAttr (atualizar_cadastro row fields now) k =
      (match fields.lookup k with
       | some v => some v
       | none => getAttr row k) := by
  have h1 : getAttr (atualizar_cadastro row fields now) k =
      getAttr (applyFields row fields) k := by
    show getAttr { applyFields row fields with updated_at := now } k = _
    exact getAttr_set_updated_at (applyFields row fields) now k hnupd
  rw [h1]
  exact getAttr_applyFields fields row k hk hne hnd

/-- C10: the update path assigns each incoming field verbatim to the
same-named ORM attribute for every key except `id` (including
`codigo_cadastro` and `dados_originais` when present, and the
comma-decimal `area_*` strings unparsed), leaves attributes without an
incoming key unchanged (in particular `ativo` and `categoria` are not
re-derived — those derivations run only in the insert constructor), and
refreshes `updated_at` to the current time. -/
theorem atualizacao_atribui_verbatim (row : DBRow) (fields : List (String × JVal))
    (now : JVal) (hnd : (fields.map Prod.fst).Nodup) :
    (∀ k : String, (attrOf k).isSome = true → k ≠ "id" → k ≠ "updated_at" →
      getAttr (atualizar_cadastro row fields now) k =
        (match fields.lookup k with
         | some v => some v
         | none => getAttr row k)) ∧
    (atualizar_cadastro row fields now).updated_at = now ∧
    (atualizar_cadastro row fields now).id = row.id ∧
    (fields.lookup "ativo" = none →
      (atualizar_cadastro row fields now).ativo = row.ativo) ∧
    (fields.lookup "categoria" = none →
      (atualizar_cadastro row fields now).categoria = row.categoria) ∧
    (∀ v : JVal, fields.lookup "area_terreno" = some v →
      (atualizar_cadastro row fields now).area_terreno = v) ∧
    (∀ (record : JVal) (rid : Int) (nw : JVal),
      (inserirRowScalars record rid nw).categoria =
        tipoCadastroCategoria (JVal.get record "tipo_cadastro") ∧
      (inserirRowScalars record rid nw).ativo =
        JVal.b (pyEqVal (JVal.get record "situacao") (JVal.s "1"))) := by
  have hmain := atualizar_cadastro_getAttr row fields now hnd
  refine ⟨hmain, rfl, ?_, ?_, ?_, ?_, fun record rid nw => ⟨rfl, rfl⟩⟩
  · show (applyFields row fields).id = row.id
    exact applyFields_id fields row
  · intro hl
    have h2 := hmain "ativo" (by decide) (by decide) (by decide)
    rw [hl] at h2
    exact Option.some.inj h2
  · intro hl
    have h2 := hmain "categoria" (by decide) (by decide) (by decide)
    rw [hl] at h2
    exact Option.some.inj h2
  · intro v hl
    have h2 := hmain "area_terreno" (by decide) (by decide) (by decide)
    rw [hl] at h2
    exact Option.some.inj h2

/-- Witness for C10: update a freshly inserted row with a comma-decimal
area string and a zoning list; the area is stored verbatim, `ativo` and
`categoria` stay untouched, `updated_at` is refreshed. -/
theorem atualizacao_atribui_verbatim_witness :
    (([("area_terreno", JVal.s "1,5"), ("zoneamentos", JVal.arr []),
        ("situacao", JVal.s "2")].map Prod.fst).Nodup) ∧
    ((∀ k : String, (attrOf k).isSome = true → k ≠ "id" → k ≠ "updated_at" →
      getAttr (atualizar_cadastro (inserirRowScalars (JVal.obj []) 1 (JVal.s "t0"))
          [("area_terreno", JVal.s "1,5"), ("zoneamentos", JVal.arr []),
            ("situacao", JVal.s "2")] (JVal.s "t1")) k =
        (match [("area_terreno", JVal.s "1,5"), ("zoneamentos", JVal.arr []),
            ("situacao", JVal.s "2")].lookup k with
         | some v => some v
         | none => getAttr (inserirRowScalars (JVal.obj []) 1 (JVal.s "t0")) k)) ∧
    (atualizar_cadastro (inserirRowScalars (JVal.obj []) 1 (JVal.s "t0"))
        [("area_terreno", JVal.s "1,5"), ("zoneamentos", JVal.arr []),
          ("situacao", JVal.s "2")] (JVal.s "t1")).updated_at = JVal.s "t1" ∧
    (atualizar_cadastro (inserirRowScalars (JVal.obj []) 1 (JVal.s "t0"))
        [("area_terreno", JVal.s "1,5"), ("zoneamentos", JVal.arr []),
          ("situacao", JVal.s "2")] (JVal.s "t1")).id =
      (inserirRowScalars (JVal.obj []) 1 (JVal.s "t0")).id ∧
    ([("area_terreno", JVal.s "1,5"), ("zoneamentos", JVal.arr []),
        ("situacao", JVal.s "2")].lookup "ativo" = none →
      (atualizar_cadastro (inserirRowScalars (JVal.obj []) 1 (JVal.s "t0"))
          [("area_terreno", JVal.s "1,5"), ("zoneamentos", JVal.arr []),
            ("situacao", JVal.s "2")] (JVal.s "t1")).ativo =
        (inserirRowScalars (JVal.obj []) 1 (JVal.s "t0")).ativo) ∧
    ([("area_terreno", JVal.s "1,5"), ("zoneamentos", JVal.arr []),
        ("situacao", JVal.s "2")].lookup "categoria" = none →
      (atualizar_cadastro (inserirRowScalars (JVal.obj []) 1 (JVal.s "t0"))
          [("area_terreno", JVal.s "1,5"), ("zoneamentos", JVal.arr []),
            ("situacao", JVal.s "2")] (JVal.s "t1")).categoria =
        (inserirRowScalars (JVal.obj []) 1 (JVal.s "t0")).categoria) ∧
    (∀ v : JVal, [("area_terreno", JVal.s "1,5"), ("zoneamentos", JVal.arr []),
        ("situacao", JVal.s "2")].lookup "area_terreno" = some v →
      (atualizar_cadastro (inserirRowScalars (JVal.obj []) 1 (JVal.s "t0"))
          [("area_terreno", JVal.s "1,5"), ("zoneamentos", JVal.arr []),
            ("situacao", JVal.s "2")] (JVal.s "t1")).area_terreno = v) ∧
    (∀ (record : JVal) (rid : Int) (nw : JVal),
      (inserirRowScalars record rid nw).categoria =
        tipoCadastroCategoria (JVal.get record "tipo_cadastro") ∧
      (inserirRowScalars record rid nw).ativo =
        JVal.b (pyEqVal (JVal.get record "situacao") (JVal.s "1")))) :=
  ⟨by decide,
    atualizacao_atribui_verbatim (inserirRowScalars (JVal.obj []) 1 (JVal.s "t0"))
      [("area_terreno", JVal.s "1,5"), ("zoneamentos", JVal.arr []),
        ("situacao", JVal.s "2")] (JVal.s "t1") (by decide)⟩

/-- The business key of a record (`cadastro.get('codigo_cadastro')`). -/
abbrev codeOf (c : JVal) : JVal := JVal.get c "codigo_cadastro"

/-- Number of rows whose `codigo_cadastro` column equals a value under
Python/SQL scalar equality. -/
def countEq (db : List DBRow) (v : JVal) : Nat :=
  (db.filter (fun r => pyEqVal r.codigo_cadastro v)).length

/-- A batch record the loader can fully process: a dict with a truthy
business key, unique field names (a Python dict), and iterable child
collections. -/
def bomRegistro (c : JVal) : Prop :=
  ∃ fields, c = JVal.obj fields ∧ (codeOf c).isTruthy = true ∧
    (fields.map Prod.fst).Nodup ∧
    (iterChildren (getDefaultArr c "proprietariosbci")).isSome = true ∧
    (iterChildren (getDefaultArr c "enderecos")).isSome = true ∧
    (iterChildren (getDefaultArr c "zoneamentos")).isSome = true

theorem pyEqVal_congr {a c : JVal} (h : pyEqVal a c = true) (v : JVal) :
    pyEqVal a v = pyEqVal c v := by
  unfold pyEqVal at h ⊢
  cases ha : pyKeyOf a with
  | none =>
      rw [ha] at h
      cases h
  | some k1 =>
      cases hc : pyKeyOf c with
      | none =>
          rw [ha, hc] at h
          cases h
      | some k2 =>
          rw [ha, hc] at h
          have hk : k1 = k2 := eq_of_beq h
          subst hk
          rfl

theorem pyEqVal_symm (a c : JVal) : pyEqVal a c = pyEqVal c a := by
  unfold pyEqVal
  cases ha : pyKeyOf a <;> cases hc : pyKeyOf c <;> simp [beq_iff_eq, eq_comm]

theorem verificar_true_iff (db : List DBRow) (v : JVal) :
    verificar_cadastro_existe db v = true ↔ 0 < countEq db v := by
  unfold verificar_cadastro_existe countEq
  rw [List.any_eq_true]
  constructor
  · rintro ⟨r, hr, hp⟩
    have hmem : r ∈ db.filter (fun r => pyEqVal r.codigo_cadastro v) :=
      List.mem_filter.mpr ⟨hr, hp⟩
    exact List.length_pos.mpr (fun hnil => by rw [hnil] at hmem; cases hmem)
  · intro hpos
    obtain ⟨r, hr⟩ := List.exists_mem_of_length_pos hpos
    obtain ⟨hrdb, hp⟩ := List.mem_filter.mp hr
    exact ⟨r, hrdb, hp⟩

theorem verificar_eq_of_countEq {db db2 : List DBRow}
    (h : ∀ v, countEq db2 v = countEq db v) (v : JVal) :
    verificar_cadastro_existe db2 v = verificar_cadastro_existe db v := by
  cases h2 : verificar_cadastro_existe db2 v with
  | true =>
      have := (verificar_true_iff db2 v).mp h2
      rw [h v] at this
      exact ((verificar_true_iff db v).mpr this).symm
  | false =>
      cases h3 : verificar_cadastro_existe db v with
      | true =>
          have := (verificar_true_iff db v).mp h3
          rw [← h v] at this
          rw [(verificar_true_iff db2 v).mpr this] at h2
          cases h2
      | false => rfl

theorem isTruthy_get_lookup {fields : List (String × JVal)} {k : String}
    (h : (JVal.get (JVal.obj fields) k).isTruthy = true) :
    fields.lookup k = some (JVal.get (JVal.obj fields) k) := by
  have hg : JVal.get (JVal.obj fields) k = (fields.lookup k).getD JVal.null := rfl
  rw [hg] at h ⊢
  cases hl : fields.lookup k with
  | none =>
      rw [hl] at h
      exact absurd h (by decide)
  | some v => rfl

theorem atualizar_cadastro_codigo (r : DBRow) (fields : List (String × JVal)) (now : JVal)
    (codigo : JVal) (hl : fields.lookup "codigo_cadastro" = some codigo)
    (hnd : (fields.map Prod.fst).Nodup) :
    (atualizar_cadastro r fields now).codigo_cadastro = codigo := by
  have h2 := atualizar_cadastro_getAttr r fields now hnd "codigo_cadastro"
    (by decide) (by decide) (by decide)
  rw [hl] at h2
  exact Option.some.inj h2

theorem countEq_atualizar_no_db (codigo : JVal) (fields : List (String × JVal)) (now : JVal)
    (hl : fields.lookup "codigo_cadastro" = some codigo)
    (hnd : (fields.map Prod.fst).Nodup) :
    ∀ (db : List DBRow) (v : JVal),
      countEq (atualizar_no_db db codigo fields now) v = countEq db v := by
  intro db
  induction db with
  | nil => intro v; rfl
  | cons r rs ih =>
      intro v
      unfold atualizar_no_db
      split_ifs with hmatch
      · unfold countEq
        simp only [List.filter_cons]
        rw [atualizar_cadastro_codigo r fields now codigo hl hnd]
        rw [← pyEqVal_congr hmatch v]
        cases hpe : pyEqVal r.codigo_cadastro v with
        | true =>
            rw [if_pos rfl, if_pos rfl]
            simp only [List.length_cons]
        | false =>
            rw [if_neg (by decide), if_neg (by decide)]
      · unfold countEq
        simp only [List.filter_cons]
        cases hpe : pyEqVal r.codigo_cadastro v with
        | true =>
            rw [if_pos rfl, if_pos rfl]
            simp only [List.length_cons]
            have h2 := ih v
            unfold countEq at h2
            omega
        | false =>
            rw [if_neg (by decide), if_neg (by decide)]
            exact ih v

theorem inserir_sucesso (db : List DBRow) (fields : List (String × JVal)) (now : JVal)
    (h1 : (iterChildren (getDefaultArr (JVal.obj fields) "proprietariosbci")).isSome = true)
    (h2 : (iterChildren (getDefaultArr (JVal.obj fields) "enderecos")).isSome = true)
    (h3 : (iterChildren (getDefaultArr (JVal.obj fields) "zoneamentos")).isSome = true) :
    ∃ (row : DBRow) (props ends zons : List JVal),
      inserir_cadastro_completo db (JVal.obj fields) now =
        (db ++ [row], some ((db.length : Int) + 1)) ∧
      row.codigo_cadastro = JVal.get (JVal.obj fields) "codigo_cadastro" ∧
      iterChildren (getDefaultArr (JVal.obj fields) "proprietariosbci") = some props ∧
      iterChildren (getDefaultArr (JVal.obj fields) "enderecos") = some ends ∧
      iterChildren (getDefaultArr (JVal.obj fields) "zoneamentos") = some zons ∧
      row = { inserirRowScalars (JVal.obj fields) ((db.length : Int) + 1) now with
              proprietarios := JVal.arr props, enderecos := JVal.arr ends,
              zoneamentos := JVal.arr zons } := by
  obtain ⟨props, hpr⟩ := Option.isSome_iff_exists.mp h1
  obtain ⟨ends, hen⟩ := Option.isSome_iff_exists.mp h2
  obtain ⟨zons, hzo⟩ := Option.isSome_iff_exists.mp h3
  refine ⟨{ inserirRowScalars (JVal.obj fields) ((db.length : Int) + 1) now with
      proprietarios := JVal.arr props, enderecos := JVal.arr ends,
      zoneamentos := JVal.arr zons }, props, ends, zons, ?_, rfl, hpr, hen, hzo, rfl⟩
  simp only [inserir_cadastro_completo, hpr, hen, hzo]

theorem verificar_append_one (db : List DBRow) (r : DBRow) (u : JVal) :
    verificar_cadastro_existe (db ++ [r]) u =
      (verificar_cadastro_existe db u || pyEqVal r.codigo_cadastro u) := by
  simp [verificar_cadastro_existe, List.any_append]

theorem countEq_append_one (db : List DBRow) (r : DBRow) (v : JVal) :
    countEq (db ++ [r]) v =
      countEq db v + (if pyEqVal r.codigo_cadastro v = true then 1 else 0) := by
  unfold countEq
  rw [List.filter_append, List.length_append]
  cases hpe : pyEqVal r.codigo_cadastro v with
  | true => simp [List.filter_cons, hpe]
  | false => simp [List.filter_cons, hpe]

theorem processarAux_upsert (now : JVal) :
    ∀ (cadastros : List JVal) (db : List DBRow) (ins upd err : Nat) (msgs : List String),
      (∀ c ∈ cadastros, bomRegistro c) →
      cadastros.Pairwise (fun c1 c2 => pyEqVal (codeOf c1) (codeOf c2) = false) →
      ∃ db2 ins2 upd2,
        processarAux now cadastros db (ins, upd, err, msgs) = (db2, ins2, upd2, err, msgs) ∧
        ins2 = ins + (cadastros.filter
          (fun c => !(verificar_cadastro_existe db (codeOf c)))).length ∧
        upd2 = upd + (cadastros.filter
          (fun c => verificar_cadastro_existe db (codeOf c))).length ∧
        (∀ v : JVal, countEq db2 v = countEq db v +
          (cadastros.filter (fun c =>
            !(verificar_cadastro_existe db (codeOf c)) && pyEqVal (codeOf c) v)).length) := by
  intro cadastros
  induction cadastros with
  | nil =>
      intro db ins upd err msgs hb hp
      exact ⟨db, ins, upd, rfl, by simp, by simp, fun v => by simp⟩
  | cons c rest ih =>
      intro db ins upd err msgs hb hp
      obtain ⟨fields, hcf, htr, hnd, hic1, hic2, hic3⟩ := hb c (List.mem_cons_self _ _)
      subst hcf
      rw [List.pairwise_cons] at hp
      obtain ⟨hpc, hprest⟩ := hp
      have hbrest : ∀ c2 ∈ rest, bomRegistro c2 :=
        fun c2 h2 => hb c2 (List.mem_cons_of_mem _ h2)
      have hl : fields.lookup "codigo_cadastro" =
          some (JVal.get (JVal.obj fields) "codigo_cadastro") :=
        isTruthy_get_lookup htr
      simp only [processarAux]
      rw [if_neg (by rw [htr]; simp)]
      by_cases hex :
          verificar_cadastro_existe db (JVal.get (JVal.obj fields) "codigo_cadastro") = true
      · rw [if_pos hex]
        have hcnt : ∀ v, countEq
            (atualizar_no_db db (JVal.get (JVal.obj fields) "codigo_cadastro") fields now) v =
            countEq db v :=
          countEq_atualizar_no_db (JVal.get (JVal.obj fields) "codigo_cadastro")
            fields now hl hnd db
        have hver : ∀ u, verificar_cadastro_existe
            (atualizar_no_db db (JVal.get (JVal.obj fields) "codigo_cadastro") fields now) u =
            verificar_cadastro_existe db u :=
          verificar_eq_of_countEq hcnt
        obtain ⟨db2, i2, u2, heq, hins, hupd, hcnt2⟩ :=
          ih (atualizar_no_db db (JVal.get (JVal.obj fields) "codigo_cadastro") fields now)
            ins (upd + 1) err msgs hbrest hprest
        refine ⟨db2, i2, u2, heq, ?_, ?_, ?_⟩
        · rw [hins]
          have hfc : rest.filter (fun c2 => !(verificar_cadastro_existe
                (atualizar_no_db db (JVal.get (JVal.obj fields) "codigo_cadastro") fields now)
                (codeOf c2))) =
              rest.filter (fun c2 => !(verificar_cadastro_existe db (codeOf c2))) :=
            List.filter_congr (fun c2 h2 => by rw [hver (codeOf c2)])
          rw [hfc, List.filter_cons, if_neg (by rw [hex]; decide)]
        · rw [hupd]
          have hfc : rest.filter (fun c2 => verificar_cadastro_existe
                (atualizar_no_db db (JVal.get (JVal.obj fields) "codigo_cadastro") fields now)
                (codeOf c2)) =
              rest.filter (fun c2 => verificar_cadastro_existe db (codeOf c2)) :=
            List.filter_congr (fun c2 h2 => by rw [hver (codeOf c2)])
          rw [hfc, List.filter_cons, if_pos hex, List.length_cons]
          omega
        · intro v
          rw [hcnt2 v, hcnt v]
          have hfc : rest.filter (fun c2 => !(verificar_cadastro_existe
                (atualizar_no_db db (JVal.get (JVal.obj fields) "codigo_cadastro") fields now)
                (codeOf c2)) && pyEqVal (codeOf c2) v) =
              rest.filter (fun c2 =>
                !(verificar_cadastro_existe db (codeOf c2)) && pyEqVal (codeOf c2) v) :=
            List.filter_congr (fun c2 h2 => by rw [hver (codeOf c2)])
          rw [hfc, List.filter_cons, hex]
          simp
      · rw [if_neg hex]
        have hexf : verificar_cadastro_existe db
            (JVal.get (JVal.obj fields) "codigo_cadastro") = false := by
          cases h : verificar_cadastro_existe db (JVal.get (JVal.obj fields) "codigo_cadastro")
          · rfl
          · exact absurd h hex
        obtain ⟨row, props, ends, zons, hins_eq, hrowcode, hpr, hen, hzo, hrow⟩ :=
          inserir_sucesso db fields now hic1 hic2 hic3
        rw [hins_eq]
        have hver2 : ∀ c2 ∈ rest, verificar_cadastro_existe (db ++ [row]) (codeOf c2) =
            verificar_cadastro_existe db (codeOf c2) := by
          intro c2 h2
          rw [verificar_append_one, hrowcode]
          rw [hpc c2 h2]
          simp
        obtain ⟨db2, i2, u2, heq, hins, hupd, hcnt2⟩ :=
          ih (db ++ [row]) (ins + 1) upd err msgs hbrest hprest
        refine ⟨db2, i2, u2, heq, ?_, ?_, ?_⟩
        · rw [hins]
          have hfc : rest.filter
                (fun c2 => !(verificar_cadastro_existe (db ++ [row]) (codeOf c2))) =
              rest.filter (fun c2 => !(verificar_cadastro_existe db (codeOf c2))) :=
            List.filter_congr (fun c2 h2 => by rw [hver2 c2 h2])
          rw [hfc, List.filter_cons, if_pos (by rw [hexf]; rfl), List.length_cons]
          omega
        · rw [hupd]
          have hfc : rest.filter
                (fun c2 => verificar_cadastro_existe (db ++ [row]) (codeOf c2)) =
              rest.filter (fun c2 => verificar_cadastro_existe db (codeOf c2)) :=
            List.filter_congr (fun c2 h2 => by rw [hver2 c2 h2])
          rw [hfc, List.filter_cons, if_neg (by rw [hexf]; decide)]
        · intro v
          rw [hcnt2 v, countEq_append_one, hrowcode]
          have hfc : rest.filter (fun c2 =>
                !(verificar_cadastro_existe (db ++ [row]) (codeOf c2)) &&
                  pyEqVal (codeOf c2) v) =
              rest.filter (fun c2 =>
                !(verificar_cadastro_existe db (codeOf c2)) && pyEqVal (codeOf c2) v) :=
            List.filter_congr (fun c2 h2 => by rw [hver2 c2 h2])
          rw [hfc, List.filter_cons, hexf]
          cases hpecv : pyEqVal (JVal.get (JVal.obj fields) "codigo_cadastro") v with
          | true => simp [List.length_cons]; omega
          | false => simp

/-- `pyEqVal`-congruence of the SQL existence check: equal keys match
the same rows. -/
theorem verificar_congr (db : List DBRow) {a v : JVal} (h : pyEqVal a v = true) :
    verificar_cadastro_existe db a = verificar_cadastro_existe db v := by
  unfold verificar_cadastro_existe
  induction db with
  | nil => rfl
  | cons r rest ih =>
      have hr : pyEqVal r.codigo_cadastro a = pyEqVal r.codigo_cadastro v := by
        rw [pyEqVal_symm r.codigo_cadastro a, pyEqVal_congr h r.codigo_cadastro,
          pyEqVal_symm v r.codigo_cadastro]
      simp only [List.any_cons, ih, hr]

/-- A list pairwise-excluding a predicate keeps at most one element
satisfying it. -/
theorem length_filter_le_one {α : Type} (P : α → Bool) :
    ∀ l : List α, l.Pairwise (fun a b => P a = true → P b = false) →
      (l.filter P).length ≤ 1 := by
  intro l
  induction l with
  | nil => intro _; simp
  | cons a t ih =>
      intro hp
      rw [List.pairwise_cons] at hp
      obtain ⟨ha, ht⟩ := hp
      rw [List.filter_cons]
      cases hPa : P a with
      | false => simpa using ih ht
      | true =>
          have hnil : t.filter P = [] := List.filter_eq_nil_iff.mpr
            (fun c hc => by rw [ha c hc hPa]; exact Bool.false_ne_true)
          simp [hnil]

/-- A minimal batch record carrying only the business key. -/
def cadRec (k : String) : JVal := JVal.obj [("codigo_cadastro", JVal.s k)]

/-- The five-record batch of the loader scenario. -/
def batchCinco : List JVal :=
  [cadRec "1", cadRec "2", cadRec "3", cadRec "4", cadRec "5"]

/-- A database pre-seeded with codes 4 and 5 (two of the batch codes
already present). -/
def dbSemente : List DBRow :=
  (processar_lote_cadastros [] [cadRec "4", cadRec "5"] "seed.xml" JVal.null).1

/-- The database after running the five-record batch once. -/
def dbLote : List DBRow :=
  (processar_lote_cadastros dbSemente batchCinco "lote.xml" JVal.null).1

/-- C2 (amended).  For a batch of well-formed dict records with truthy,
pairwise-distinct business keys, the loader upserts by
`codigo_cadastro`: records whose code already exists are updated in
place (no new row), records with a new code are inserted, no errors are
reported, and per-key row counts grow only by the new codes — so a
database with at most one row per key keeps that uniqueness.  In the
concrete scenario, a batch of five records of which two codes are
pre-seeded reports inseridos = 3, atualizados = 2, erros = 0, and
re-running the identical batch reports inseridos = 0, atualizados = 5,
erros = 0. -/
theorem upsert_por_codigo
    (db : List DBRow) (cadastros : List JVal) (arquivo : String) (now : JVal)
    (hb : ∀ c ∈ cadastros, bomRegistro c)
    (hpw : cadastros.Pairwise (fun c1 c2 => pyEqVal (codeOf c1) (codeOf c2) = false)) :
    (∃ db2 res log,
      processar_lote_cadastros db cadastros arquivo now = (db2, res, log) ∧
      res.inseridos =
        (cadastros.filter (fun c => !(verificar_cadastro_existe db (codeOf c)))).length ∧
      res.atualizados =
        (cadastros.filter (fun c => verificar_cadastro_existe db (codeOf c))).length ∧
      res.erros = 0 ∧
      (∀ v : JVal, countEq db2 v = countEq db v +
        (cadastros.filter (fun c =>
          !(verificar_cadastro_existe db (codeOf c)) && pyEqVal (codeOf c) v)).length) ∧
      (∀ v : JVal, countEq db v ≤ 1 → countEq db2 v ≤ 1)) ∧
    ((processar_lote_cadastros dbSemente batchCinco "lote.xml" JVal.null).2.1.inseridos = 3 ∧
     (processar_lote_cadastros dbSemente batchCinco "lote.xml" JVal.null).2.1.atualizados = 2 ∧
     (processar_lote_cadastros dbSemente batchCinco "lote.xml" JVal.null).2.1.erros = 0) ∧
    ((processar_lote_cadastros dbLote batchCinco "lote.xml" JVal.null).2.1.inseridos = 0 ∧
     (processar_lote_cadastros dbLote batchCinco "lote.xml" JVal.null).2.1.atualizados = 5 ∧
     (processar_lote_cadastros dbLote batchCinco "lote.xml" JVal.null).2.1.erros = 0) := by
  refine ⟨?_, ⟨by decide, by decide, by decide⟩, ⟨by decide, by decide, by decide⟩⟩
  obtain ⟨db2, ins2, upd2, heq, hins, hupd, hcnt⟩ :=
    processarAux_upsert now cadastros db 0 0 0 [] hb hpw
  have hout : processar_lote_cadastros db cadastros arquivo now =
      (db2, ⟨cadastros.length, ins2, upd2, 0, []⟩,
       ⟨arquivo, cadastros.length, ins2, upd2, 0, "sucesso", ""⟩) := by
    simp only [processar_lote_cadastros]
    rw [heq]
    rfl
  refine ⟨db2, _, _, hout, ?_, ?_, rfl, ?_, ?_⟩
  · show ins2 = _
    omega
  · show upd2 = _
    omega
  · intro v
    exact hcnt v
  · intro v hle
    rw [hcnt v]
    by_cases hex : verificar_cadastro_existe db v = true
    · have hz : (cadastros.filter (fun c =>
          !(verificar_cadastro_existe db (codeOf c)) && pyEqVal (codeOf c) v)).length = 0 := by
        rw [List.length_eq_zero]
        apply List.filter_eq_nil_iff.mpr
        intro c hc
        intro hcontra
        rw [Bool.and_eq_true] at hcontra
        obtain ⟨hnv, hpe⟩ := hcontra
        rw [verificar_congr db hpe, hex] at hnv
        cases hnv
      omega
    · have h0 : countEq db v = 0 := by
        cases Nat.eq_zero_or_pos (countEq db v) with
        | inl h => exact h
        | inr h => exact absurd ((verificar_true_iff db v).mpr h) hex
      have hle1 : (cadastros.filter (fun c =>
          !(verificar_cadastro_existe db (codeOf c)) && pyEqVal (codeOf c) v)).length ≤ 1 := by
        apply length_filter_le_one
        apply hpw.imp
        intro c1 c2 h12 h1
        rw [Bool.and_eq_true] at h1
        obtain ⟨_, hpe1⟩ := h1
        have h2v : pyEqVal (codeOf c2) v = false := by
          rw [pyEqVal_symm (codeOf c2) v, ← pyEqVal_congr hpe1 (codeOf c2)]
          exact h12
        simp [h2v]
      omega

/-- C2 counterexample: a record whose `codigo_cadastro` is the integer
0 has a code absent from the (empty) database, yet the loader reports
it as an error ("Cadastro sem código") and inserts nothing — falsy
codes are never inserted, refuting the unconditional claim. -/
theorem upsert_codigo_falsy_nao_insere :
    verificar_cadastro_existe []
      (codeOf (JVal.obj [("codigo_cadastro", JVal.i 0)])) = false ∧
    (processar_lote_cadastros [] [JVal.obj [("codigo_cadastro", JVal.i 0)]] "lote.xml"
      JVal.null).2.1.inseridos = 0 ∧
    (processar_lote_cadastros [] [JVal.obj [("codigo_cadastro", JVal.i 0)]] "lote.xml"
      JVal.null).2.1.erros = 1 ∧
    (processar_lote_cadastros [] [JVal.obj [("codigo_cadastro", JVal.i 0)]] "lote.xml"
      JVal.null).1 = [] := by
  refine ⟨rfl, by decide, by decide, rfl⟩

/-- C2 witness: the scenario hypotheses hold at a concrete one-record
batch on the empty database. -/
theorem upsert_por_codigo_witness :
    ∃ db2 res log,
      processar_lote_cadastros [] [cadRec "7"] "w.xml" JVal.null = (db2, res, log) ∧
      res.inseridos = 1 ∧ res.atualizados = 0 ∧ res.erros = 0 := by
  obtain ⟨⟨db2, res, log, heq, hins, hupd, herr, _, _⟩, _, _⟩ :=
    upsert_por_codigo [] [cadRec "7"] "w.xml" JVal.null
      (by
        intro c hc
        rw [List.mem_singleton] at hc
        subst hc
        exact ⟨[("codigo_cadastro", JVal.s "7")], rfl, by decide, by decide,
          by decide, by decide, by decide⟩)
      (by simp)
  refine ⟨db2, res, log, heq, ?_, ?_, herr⟩
  · rw [hins]; decide
  · rw [hupd]; decide

/-- Helper for `_to_list`: Python's "exactly one field and its value is
a list" fallback (`len(value) == 1` and `isinstance(only, list)`). -/
def singleListField : List (String × JVal) → Option (List JVal)
  | [(_, JVal.arr xs)] => some xs
  | _ => none

/-- `SoapClient._to_list` (`soap_client.py`): normalize a SOAP-style
collection to a Python list.  `None` becomes `[]`, a list is returned
as-is, a dict is unwrapped through its `item` key (wrapping a non-list
`item` in a singleton), else through its single list-valued field, else
wrapped as a one-element list; any other scalar is wrapped. -/
def to_list (value : JVal) : List JVal :=
  match value with
  | JVal.null => []
  | JVal.arr xs => xs
  | JVal.obj fields =>
      match fields.lookup "item" with
      | some (JVal.arr xs) => xs
      | some v => [v]
      | none =>
          match singleListField fields with
          | some xs => xs
          | none => [JVal.obj fields]
  | v => [v]

/-- C9 (amended).  `_to_list` maps `None` to `[]`, returns a list
unchanged (keeping non-mapping entries), unwraps a dict through its
`item` key — the `item` value itself when it is a list, else a
singleton holding it —, else through its unique list-valued field when
the dict has exactly one field, else wraps the dict itself in a
singleton; any other scalar is wrapped in a singleton.  No entry of the
result is ever dropped for not being a mapping. -/
theorem to_list_formas (xs : List JVal) (fields : List (String × JVal)) (w : JVal)
    (bb : Bool) (n : Int) (q : ℚ) (str : String) :
    to_list JVal.null = [] ∧
    to_list (JVal.arr xs) = xs ∧
    (fields.lookup "item" = some (JVal.arr xs) → to_list (JVal.obj fields) = xs) ∧
    (fields.lookup "item" = some w → (∀ ys, w ≠ JVal.arr ys) →
      to_list (JVal.obj fields) = [w]) ∧
    (fields.lookup "item" = none → singleListField fields = some xs →
      to_list (JVal.obj fields) = xs) ∧
    (fields.lookup "item" = none → singleListField fields = none →
      to_list (JVal.obj fields) = [JVal.obj fields]) ∧
    to_list (JVal.b bb) = [JVal.b bb] ∧
    to_list (JVal.i n) = [JVal.i n] ∧
    to_list (JVal.f q) = [JVal.f q] ∧
    to_list (JVal.s str) = [JVal.s str] := by
  refine ⟨rfl, rfl, ?_, ?_, ?_, ?_, rfl, rfl, rfl, rfl⟩
  · intro h
    simp [to_list, h]
  · intro h hne
    cases w with
    | arr ys => exact absurd rfl (hne ys)
    | null => simp [to_list, h]
    | b x => simp [to_list, h]
    | i x => simp [to_list, h]
    | f x => simp [to_list, h]
    | s x => simp [to_list, h]
    | obj fs => simp [to_list, h]
  · intro h1 h2
    simp [to_list, h1, h2]
  · intro h1 h2
    simp [to_list, h1, h2]

/-- C9 counterexample: an already-flat sequence with a non-mapping
entry is returned with that entry kept — `_to_list` never drops
non-mapping entries, so the coerced collection need not consist of
mappings. -/
theorem to_list_mantem_nao_mapeamentos :
    to_list (JVal.arr [JVal.s "a"]) = [JVal.s "a"] ∧
    (JVal.s "a").isObj = false := ⟨rfl, rfl⟩
